import Mathlib

/-!
# Goscord interaction payloads: typed accessors and decoding

A shallow embedding of `goscord/discord/interaction.go`.

* Go values held by an `interface{}` are a tagged sum (`Value`); a failed
  single-result type assertion is the `Panic` outcome of an `Except`.
* `float64` is its IEEE 754 binary64 bit fields, so that the conversion
  `int64(f)` is a function on bits.
* A method with a pointer receiver that mutates it returns the new receiver
  together with its `error` result.
-/

namespace Goscord

/-! ## Go scalar types -/

/-- Go `string`. -/
abbrev string := String

/-- Go `bool`. -/
abbrev bool := Bool

/-- Go `int64`: an integer in `[-2^63, 2^63)`. -/
abbrev int64 := Int

/-- Go `int` (64 bits wide on the supported platforms). -/
abbrev int := Int

/-- Go `float64`: the three bit fields of an IEEE 754 binary64 number. -/
structure float64 where
  /-- Sign bit. -/
  sign : Bool
  /-- Biased exponent, 11 bits. -/
  expo : Nat
  /-- Fraction, 52 bits. -/
  frac : Nat
  expo_lt : expo < 2048
  frac_lt : frac < 2 ^ 52
  deriving DecidableEq

namespace float64

/-- Positive zero, the zero value of `float64`. -/
def zero : float64 := ⟨false, 0, 0, by decide, by decide⟩

/-- Neither an infinity nor a NaN. -/
def isFinite (x : float64) : Bool := x.expo != 2047

/-- Significand as a natural number: the fraction, with the hidden bit for a
normal number. -/
def mant (x : float64) : Nat := if x.expo = 0 then x.frac else 2 ^ 52 + x.frac

/-- Effective biased exponent: subnormals share the exponent of the smallest
normal numbers. -/
def bexp (x : float64) : Nat := if x.expo = 0 then 1 else x.expo

/-- Integer part of the magnitude of a finite number, `mant * 2^(bexp - 1075)`
with the fraction bits shifted out. -/
def truncMag (x : float64) : Nat :=
  if 1075 ≤ x.bexp then x.mant * 2 ^ (x.bexp - 1075) else x.mant / 2 ^ (1075 - x.bexp)

/-- Integer part of a finite number, sign applied. -/
def trunc (x : float64) : Int := if x.sign then -(x.truncMag : Int) else (x.truncMag : Int)

/-- The Go conversion `int64(x)`: the fraction is discarded. When the value is
not representable (out of range, infinite, NaN) the conversion still succeeds
with an implementation-dependent result; amd64 yields `-2^63`. -/
def toInt64 (x : float64) : int64 :=
  if x.isFinite ∧ -(2 : Int) ^ 63 ≤ x.trunc ∧ x.trunc < (2 : Int) ^ 63 then x.trunc
  else -(2 : Int) ^ 63

/-- The rational number a finite `float64` denotes. -/
def toRat (x : float64) : ℚ :=
  (if x.sign then -1 else 1) * (x.mant : ℚ) * (2 : ℚ) ^ ((x.bexp : Int) - 1075)

/-- Magnitude of a finite number as a rational. -/
def magRat (x : float64) : ℚ := (x.mant : ℚ) * (2 : ℚ) ^ ((x.bexp : Int) - 1075)

end float64

/-- Truncation of a rational toward zero. -/
def truncTowardZero (q : ℚ) : Int := if 0 ≤ q then ⌊q⌋ else ⌈q⌉

/-! ## Dynamically typed values -/

/-- Raised by a failed single-result type assertion `x.(T)`. -/
inductive Panic
  | interfaceConversion
  deriving DecidableEq

/-- A JSON number token, by the two readings a decoder takes of it: as an
integer literal (absent when the token has a fraction or an exponent, or does
not fit) and as a `float64`. -/
structure JNumber where
  asInt : Option Int
  asFloat : float64
  deriving DecidableEq

/-- A JSON document. An object keeps its members in textual order. -/
inductive Json
  | null
  | bool (b : Bool)
  | num (n : JNumber)
  | str (s : String)
  | arr (xs : List Json)
  | obj (kvs : List (String × Json))

/-- Encoded JSON bytes (`[]byte`, `json.RawMessage`) holding one document;
`none` is the empty byte string, which holds no document. -/
abbrev RawJson := Option Json

/-- Modelled from the spec: `Attachment` is declared outside
`interaction.go`; the spec treats it as a referenced entity whose content is
not looked at, so it is kept as the JSON object it stands for. -/
structure Attachment where
  raw : Json

/-- Modelled from the spec: `GuildMember` is declared outside
`interaction.go`; a referenced entity, kept as the JSON object it was decoded
from. -/
structure GuildMember where
  raw : Json

/-- Modelled from the spec: `User` is declared outside `interaction.go`; a
referenced entity, kept as the JSON object it was decoded from. -/
structure User where
  raw : Json

/-- Modelled from the spec: `Message` is declared outside `interaction.go`; a
referenced entity, kept as the JSON object it was decoded from. -/
structure Message where
  raw : Json

/-- Contents of an `interface{}`: the dynamic types a JSON decode produces
(`nil`, `bool`, `float64`, `string`, `[]interface{}`, `map[string]interface{}`),
a `*Attachment` (possibly a nil pointer), and any other dynamic type. -/
inductive Value
  | nil
  | bool (b : Bool)
  | float64 (x : float64)
  | string (s : String)
  | slice (xs : List Value)
  | map (kvs : List (String × Value))
  | attachment (p : Option Attachment)
  | other (typeName : String)

/-! ## Command options -/

def ApplicationCommandOptionSubCommand : int := 1
def ApplicationCommandOptionSubCommandGroup : int := 2
def ApplicationCommandOptionString : int := 3
def ApplicationCommandOptionInteger : int := 4
def ApplicationCommandOptionBoolean : int := 5
def ApplicationCommandOptionUser : int := 6
def ApplicationCommandOptionChannel : int := 7
def ApplicationCommandOptionRole : int := 8
def ApplicationCommandOptionMentionable : int := 9
def ApplicationCommandOptionNumber : int := 10
def ApplicationCommandOptionAttachment : int := 11

/-- The struct `ApplicationCommandInteractionDataOption`. `Type_` is the Go
field `Type`. -/
inductive ApplicationCommandInteractionDataOption
  | mk (Name : string) (Type_ : int) (Value : Value)
      (Options : List ApplicationCommandInteractionDataOption) (Focused : bool)

namespace ApplicationCommandInteractionDataOption

def Name : ApplicationCommandInteractionDataOption → string
  | mk n _ _ _ _ => n

def Type_ : ApplicationCommandInteractionDataOption → int
  | mk _ t _ _ _ => t

def Value : ApplicationCommandInteractionDataOption → Value
  | mk _ _ v _ _ => v

def Options : ApplicationCommandInteractionDataOption →
    List ApplicationCommandInteractionDataOption
  | mk _ _ _ os _ => os

def Focused : ApplicationCommandInteractionDataOption → bool
  | mk _ _ _ _ f => f

end ApplicationCommandInteractionDataOption

/-- Method `Int() int64`: zero unless the option is an Integer, else the
asserted `float64` converted by `int64(...)`. -/
def ApplicationCommandInteractionDataOption.Int
    (o : ApplicationCommandInteractionDataOption) : Except Panic int64 :=
  if o.Type_ ≠ ApplicationCommandOptionInteger then .ok 0
  else
    match o.Value with
    | .float64 x => .ok x.toInt64
    | _ => .error .interfaceConversion

/-- Method `Float() float64`. -/
def ApplicationCommandInteractionDataOption.Float
    (o : ApplicationCommandInteractionDataOption) : Except Panic float64 :=
  if o.Type_ ≠ ApplicationCommandOptionNumber then .ok float64.zero
  else
    match o.Value with
    | .float64 x => .ok x
    | _ => .error .interfaceConversion

/-- Method `String() string`. -/
def ApplicationCommandInteractionDataOption.String
    (o : ApplicationCommandInteractionDataOption) : Except Panic string :=
  if o.Type_ ≠ ApplicationCommandOptionString then .ok ""
  else
    match o.Value with
    | .string s => .ok s
    | _ => .error .interfaceConversion

/-- Method `Bool() bool`. -/
def ApplicationCommandInteractionDataOption.Bool
    (o : ApplicationCommandInteractionDataOption) : Except Panic bool :=
  if o.Type_ ≠ ApplicationCommandOptionBoolean then .ok false
  else
    match o.Value with
    | .bool b => .ok b
    | _ => .error .interfaceConversion

/-- Method `UserId() string`. -/
def ApplicationCommandInteractionDataOption.UserId
    (o : ApplicationCommandInteractionDataOption) : Except Panic string :=
  if o.Type_ ≠ ApplicationCommandOptionUser then .ok ""
  else
    match o.Value with
    | .string s => .ok s
    | _ => .error .interfaceConversion

/-- Method `ChannelId() string`. -/
def ApplicationCommandInteractionDataOption.ChannelId
    (o : ApplicationCommandInteractionDataOption) : Except Panic string :=
  if o.Type_ ≠ ApplicationCommandOptionChannel then .ok ""
  else
    match o.Value with
    | .string s => .ok s
    | _ => .error .interfaceConversion

/-- Method `RoleId() string`. -/
def ApplicationCommandInteractionDataOption.RoleId
    (o : ApplicationCommandInteractionDataOption) : Except Panic string :=
  if o.Type_ ≠ ApplicationCommandOptionRole then .ok ""
  else
    match o.Value with
    | .string s => .ok s
    | _ => .error .interfaceConversion

/-- Method `Number() float64`. -/
def ApplicationCommandInteractionDataOption.Number
    (o : ApplicationCommandInteractionDataOption) : Except Panic float64 :=
  if o.Type_ ≠ ApplicationCommandOptionNumber then .ok float64.zero
  else
    match o.Value with
    | .float64 x => .ok x
    | _ => .error .interfaceConversion

/-- Method `Attachment() *Attachment`; the result `none` is the nil pointer. -/
def ApplicationCommandInteractionDataOption.Attachment
    (o : ApplicationCommandInteractionDataOption) : Except Panic (Option Attachment) :=
  if o.Type_ ≠ ApplicationCommandOptionAttachment then .ok none
  else
    match o.Value with
    | .attachment p => .ok p
    | _ => .error .interfaceConversion

/-! ## Message components -/

/-- Modelled from the spec: `TextInput` is declared outside `interaction.go`;
a leaf component with a custom identifier and the submitted text. -/
structure TextInput where
  CustomId : string
  Value : string
  deriving DecidableEq

/-- Modelled from the spec: `Button` is declared outside `interaction.go`; a
leaf component with a custom identifier. -/
structure Button where
  CustomId : string
  deriving DecidableEq

/-- Modelled from the spec: `SelectMenu` is declared outside
`interaction.go`; a leaf component with a custom identifier. -/
structure SelectMenu where
  CustomId : string
  deriving DecidableEq

/-- Modelled from the spec: the interface `MessageComponent` and its
implementations are declared outside `interaction.go`. A value is a non-nil
`*ActionRows` (with its `Components`), `*TextInput`, `*Button` or
`*SelectMenu`, the nil interface, or a value of another dynamic type. -/
inductive MessageComponent
  | ActionRows (Components : List MessageComponent)
  | TextInput (c : TextInput)
  | Button (c : Button)
  | SelectMenu (c : SelectMenu)
  | nil
  | other (typeName : String)

/-- Modelled from the spec: `unmarshalableMessageComponent` is declared
outside `interaction.go`; it wraps the decoded `MessageComponent`. -/
structure unmarshalableMessageComponent where
  MessageComponent : MessageComponent

/-! ## Interactions -/

def InteractionTypePing : int := 1
def InteractionTypeApplicationCommand : int := 2
def InteractionTypeMessageComponent : int := 3
def InteractionTypeApplicationCommandAutocomplete : int := 4
def InteractionTypeModalSubmit : int := 5

structure ApplicationCommandData where
  ID : string
  Name : string
  Options : List ApplicationCommandInteractionDataOption
  TargetID : string

structure MessageComponentData where
  CustomId : string
  ComponentType : int
  Values : List string
  deriving DecidableEq

structure ModalSubmitData where
  CustomId : string
  Components : List MessageComponent

/-- The interface `InteractionData`: one of the three payload structs of
`interaction.go`, or a value of another dynamic type, of which only the kind
its `Type()` method reports is kept. -/
inductive InteractionData
  | ApplicationCommandData (v : ApplicationCommandData)
  | MessageComponentData (v : MessageComponentData)
  | ModalSubmitData (v : ModalSubmitData)
  | other (kind : int)

/-- The method `Type() InteractionType` of the payload. -/
def InteractionData.Type_ : InteractionData → int
  | .ApplicationCommandData _ => InteractionTypeApplicationCommand
  | .MessageComponentData _ => InteractionTypeMessageComponent
  | .ModalSubmitData _ => InteractionTypeModalSubmit
  | .other kind => kind

/-- The struct `Interaction`. `Data` is `none` for the nil interface, the
pointers are `none` when nil. `Locale` is a string type and
`BitwisePermissionFlag` an integer type, both declared outside
`interaction.go`. -/
structure Interaction where
  Id : string
  ApplicationId : string
  Type_ : int
  Data : Option InteractionData
  GuildId : string
  ChannelId : string
  Member : Option GuildMember
  User : Option User
  Token : string
  Version : int
  Message : Option Message
  AppPermissions : Int
  Locale : string
  GuildLocale : string

/-- The zero value of `Interaction`. -/
def Interaction.zero : Interaction :=
  ⟨"", "", 0, none, "", "", none, none, "", 0, none, 0, "", ""⟩

/-- The struct `unmarshalableInteraction`: the embedded `rawInteraction` and
the raw `data` member. -/
structure unmarshalableInteraction (B : Type) where
  rawInteraction : Interaction
  Data : B

/-- A decode failure reported by the JSON library. -/
inductive DecodeError
  | emptyInput
  | typeMismatch
  | unknownComponentType
  | nestedActionRow
  deriving DecidableEq

/-- Go `error`; `none` is nil. -/
abbrev error := Option DecodeError

/-- The calls `sonic.Unmarshal(bytes, &target)` made by `interaction.go`, one
per type of a (zero-valued) target, over byte strings `B`. The library is
not part of the repository, so the functions are parameters.

`data_shadowed`: both `rawInteraction.Data` and the outer `Data` carry the
JSON name `data`; the less nested one takes the member, the embedded one is
left nil. -/
structure Sonic (B : Type) where
  /-- Target `unmarshalableInteraction`. -/
  unmarshalInteraction : B → Except DecodeError (unmarshalableInteraction B)
  /-- Target `ApplicationCommandData`. -/
  unmarshalApplicationCommandData : B → Except DecodeError ApplicationCommandData
  /-- Target `MessageComponentData`. -/
  unmarshalMessageComponentData : B → Except DecodeError MessageComponentData
  /-- Target `struct { CustomId string; Components json.RawMessage }`. -/
  unmarshalModalSubmitFields : B → Except DecodeError (string × B)
  /-- Target `[]unmarshalableMessageComponent`. -/
  unmarshalComponents : B → Except DecodeError (List unmarshalableMessageComponent)
  data_shadowed : ∀ b t, unmarshalInteraction b = .ok t → t.rawInteraction.Data = none

/-- The loop `for i, v := range tmp { d.Components[i] = v.MessageComponent }`,
from index `i` on. -/
def fillComponents : List unmarshalableMessageComponent → Nat →
    List MessageComponent → List MessageComponent
  | [], _, components => components
  | v :: rest, i, components => fillComponents rest (i + 1) (components.set i v.MessageComponent)

/-- Method `(d *ModalSubmitData) UnmarshalJSON(data []byte) error`: the
receiver after the call and the error returned. -/
def ModalSubmitData.UnmarshalJSON {B : Type} (sonic : Sonic B) (d : ModalSubmitData)
    (data : B) : ModalSubmitData × error :=
  match sonic.unmarshalModalSubmitFields data with
  | .error err => (d, some err)
  | .ok v =>
    let d := { d with CustomId := v.1 }
    match sonic.unmarshalComponents v.2 with
    | .error err => (d, some err)
    | .ok tmp =>
      ({ d with Components :=
          fillComponents tmp 0 (List.replicate tmp.length MessageComponent.nil) }, none)

/-- Method `(i *Interaction) UnmarshalJSON(data []byte) error`: the receiver
after the call and the error returned. `sonic.Unmarshal(tmp.Data, &v)` with
`v` a `ModalSubmitData` runs the method `UnmarshalJSON` of `v`. -/
def Interaction.UnmarshalJSON {B : Type} (sonic : Sonic B) (i : Interaction)
    (data : B) : Interaction × error :=
  match sonic.unmarshalInteraction data with
  | .error err => (i, some err)
  | .ok tmp =>
    let i := tmp.rawInteraction
    if i.Type_ = InteractionTypeApplicationCommand ∨
        i.Type_ = InteractionTypeApplicationCommandAutocomplete then
      match sonic.unmarshalApplicationCommandData tmp.Data with
      | .error err => (i, some err)
      | .ok v => ({ i with Data := some (.ApplicationCommandData v) }, none)
    else if i.Type_ = InteractionTypeMessageComponent then
      match sonic.unmarshalMessageComponentData tmp.Data with
      | .error err => (i, some err)
      | .ok v => ({ i with Data := some (.MessageComponentData v) }, none)
    else if i.Type_ = InteractionTypeModalSubmit then
      match ModalSubmitData.UnmarshalJSON sonic ⟨"", []⟩ tmp.Data with
      | (_, some err) => (i, some err)
      | (v, none) => ({ i with Data := some (.ModalSubmitData v) }, none)
    else (i, none)

/-- Method `(i *Interaction) MessageComponentData() MessageComponentData`. -/
def Interaction.MessageComponentData (i : Interaction) : Except Panic MessageComponentData :=
  match i.Data with
  | some (.MessageComponentData v) => .ok v
  | _ => .error .interfaceConversion

/-- Method `(i *Interaction) ApplicationCommandData() ApplicationCommandData`. -/
def Interaction.ApplicationCommandData (i : Interaction) :
    Except Panic ApplicationCommandData :=
  match i.Data with
  | some (.ApplicationCommandData v) => .ok v
  | _ => .error .interfaceConversion

/-- Method `(i *Interaction) ModalSubmitData() ModalSubmitData`. -/
def Interaction.ModalSubmitData (i : Interaction) : Except Panic ModalSubmitData :=
  match i.Data with
  | some (.ModalSubmitData v) => .ok v
  | _ => .error .interfaceConversion

/-- The inner loop of `Component`, over the components of one action row:
the first text input, button or select menu with the identifier. -/
def componentInRow (customId : string) : List MessageComponent → Option MessageComponent
  | [] => none
  | ac :: rest =>
    match ac with
    | .TextInput c => if c.CustomId = customId then some ac else componentInRow customId rest
    | .Button c => if c.CustomId = customId then some ac else componentInRow customId rest
    | .SelectMenu c => if c.CustomId = customId then some ac else componentInRow customId rest
    | _ => componentInRow customId rest

/-- The outer loop of `Component`, over the top-level components. -/
def componentLoop (customId : string) : List MessageComponent → Option MessageComponent
  | [] => none
  | c :: rest =>
    match c with
    | .ActionRows components =>
      match componentInRow customId components with
      | some ac => some ac
      | none => componentLoop customId rest
    | .TextInput cc => if cc.CustomId = customId then some c else componentLoop customId rest
    | .Button cc => if cc.CustomId = customId then some c else componentLoop customId rest
    | .SelectMenu cc => if cc.CustomId = customId then some c else componentLoop customId rest
    | _ => componentLoop customId rest

/-- Method `(m ModalSubmitData) Component(customId string) MessageComponent`;
`none` is the nil result. -/
def ModalSubmitData.Component (m : ModalSubmitData) (customId : string) :
    Option MessageComponent :=
  componentLoop customId m.Components

/-! ## A reference decoder over JSON documents

The field-wise decoding of `encoding/json`, which `sonic` follows: the
members of an object are taken in order, a member whose name is the JSON name
of a field is decoded into that field, other members are skipped, `null`
leaves a scalar field as it is, and a value of the wrong JSON type is an
error.

The decoder stands for the library on documents written as the platform
writes them: member names spelled exactly as the JSON names of the fields,
arrays without `null` elements, numbers within the `float64` range. Outside
of them it differs from the library, which matches member names without
regard to case, stores a nil pointer for a `null` element and refuses a
number that overflows `float64`. -/

namespace Reference

/-- Decode into a `string` field holding `cur`. -/
def decodeString (cur : string) : Json → Except DecodeError string
  | .null => .ok cur
  | .str s => .ok s
  | _ => .error .typeMismatch

/-- Decode into an `int` field holding `cur`. -/
def decodeInt (cur : int) : Json → Except DecodeError int
  | .null => .ok cur
  | .num n =>
    match n.asInt with
    | some k => if -(2 : Int) ^ 63 ≤ k ∧ k < (2 : Int) ^ 63 then .ok k else .error .typeMismatch
    | none => .error .typeMismatch
  | _ => .error .typeMismatch

/-- Decode into a `bool` field holding `cur`. -/
def decodeBool (cur : bool) : Json → Except DecodeError bool
  | .null => .ok cur
  | .bool b => .ok b
  | _ => .error .typeMismatch

/-- Value of a run of decimal digits, continuing from `acc`. -/
def decimalValue : List Char → Nat → Option Nat
  | [], acc => some acc
  | c :: cs, acc => if c.isDigit then decimalValue cs (acc * 10 + (c.toNat - 48)) else none

/-- The digits of a JSON integer: at least one, and no zero in front of
another digit. -/
def canonicalDigits : List Char → Bool
  | [] => false
  | ['0'] => true
  | '0' :: _ => false
  | _ => true

/-- Read a JSON integer literal: digits, with an optional minus sign in
front. -/
def parseDecimal (s : String) : Option Int :=
  match s.data with
  | '-' :: cs =>
    if canonicalDigits cs then (decimalValue cs 0).map (fun k => -(k : Int)) else none
  | cs => if canonicalDigits cs then (decimalValue cs 0).map Int.ofNat else none

/-- Decode into a 64-bit integer field tagged `,string`: the number comes
quoted; a quoted `null` leaves the field as it is. -/
def decodeQuotedInt (cur : Int) : Json → Except DecodeError Int
  | .null => .ok cur
  | .str s =>
    if s = "null" then .ok cur
    else
      match parseDecimal s with
      | some k =>
        if -(2 : Int) ^ 63 ≤ k ∧ k < (2 : Int) ^ 63 then .ok k else .error .typeMismatch
      | none => .error .typeMismatch
  | _ => .error .typeMismatch

/-- Decode into a `[]string` field. -/
def decodeStrings : List Json → Except DecodeError (List string)
  | [] => .ok []
  | x :: xs =>
    match decodeString "" x, decodeStrings xs with
    | .ok s, .ok ss => .ok (s :: ss)
    | .error err, _ => .error err
    | _, .error err => .error err

mutual

/-- Decode into an `interface{}`: the generic image of a document. -/
def valueOfJson : Json → Value
  | .null => .nil
  | .bool b => .bool b
  | .num n => .float64 n.asFloat
  | .str s => .string s
  | .arr xs => .slice (valuesOfJson xs)
  | .obj kvs => .map (membersOfJson kvs)

/-- Elements of an array, decoded into `[]interface{}`. -/
def valuesOfJson : List Json → List Value
  | [] => []
  | x :: xs => valueOfJson x :: valuesOfJson xs

/-- Members of an object, decoded into `map[string]interface{}`. -/
def membersOfJson : List (String × Json) → List (String × Value)
  | [] => []
  | (k, v) :: kvs => (k, valueOfJson v) :: membersOfJson kvs

end

mutual

/-- Decode one element of `[]*ApplicationCommandInteractionDataOption`. A
`null` element is a nil pointer, which a list of structs cannot hold; it is
refused. -/
def decodeOption : Json → Except DecodeError ApplicationCommandInteractionDataOption
  | .obj kvs => decodeOptionFields kvs (.mk "" 0 .nil [] false)
  | _ => .error .typeMismatch

/-- Decode the members of an option object into the option `o`. -/
def decodeOptionFields : List (String × Json) → ApplicationCommandInteractionDataOption →
    Except DecodeError ApplicationCommandInteractionDataOption
  | [], o => .ok o
  | (k, v) :: rest, .mk name ty value options focused =>
    if k = "name" then
      match decodeString name v with
      | .ok s => decodeOptionFields rest (.mk s ty value options focused)
      | .error err => .error err
    else if k = "type" then
      match decodeInt ty v with
      | .ok t => decodeOptionFields rest (.mk name t value options focused)
      | .error err => .error err
    else if k = "value" then
      decodeOptionFields rest (.mk name ty (valueOfJson v) options focused)
    else if k = "options" then
      match v with
      | .null => decodeOptionFields rest (.mk name ty value [] focused)
      | .arr xs =>
        match decodeOptions xs with
        | .ok os => decodeOptionFields rest (.mk name ty value os focused)
        | .error err => .error err
      | _ => .error .typeMismatch
    else if k = "focused" then
      match decodeBool focused v with
      | .ok b => decodeOptionFields rest (.mk name ty value options b)
      | .error err => .error err
    else decodeOptionFields rest (.mk name ty value options focused)

/-- Decode the elements of an `options` array, in order. -/
def decodeOptions : List Json →
    Except DecodeError (List ApplicationCommandInteractionDataOption)
  | [] => .ok []
  | x :: xs =>
    match decodeOption x with
    | .ok o =>
      match decodeOptions xs with
      | .ok os => .ok (o :: os)
      | .error err => .error err
    | .error err => .error err

end

/-- Decode the members of an object into the `ApplicationCommandData` `d`. -/
def decodeApplicationCommandDataFields : List (String × Json) → ApplicationCommandData →
    Except DecodeError ApplicationCommandData
  | [], d => .ok d
  | (k, v) :: rest, d =>
    if k = "id" then
      match decodeString d.ID v with
      | .ok s => decodeApplicationCommandDataFields rest { d with ID := s }
      | .error err => .error err
    else if k = "name" then
      match decodeString d.Name v with
      | .ok s => decodeApplicationCommandDataFields rest { d with Name := s }
      | .error err => .error err
    else if k = "options" then
      match v with
      | .null => decodeApplicationCommandDataFields rest { d with Options := [] }
      | .arr xs =>
        match decodeOptions xs with
        | .ok os => decodeApplicationCommandDataFields rest { d with Options := os }
        | .error err => .error err
      | _ => .error .typeMismatch
    else if k = "target_id" then
      match decodeString d.TargetID v with
      | .ok s => decodeApplicationCommandDataFields rest { d with TargetID := s }
      | .error err => .error err
    else decodeApplicationCommandDataFields rest d

/-- The call `sonic.Unmarshal(bytes, &v)` for a zero `ApplicationCommandData`. -/
def unmarshalApplicationCommandData : RawJson → Except DecodeError ApplicationCommandData
  | none => .error .emptyInput
  | some .null => .ok ⟨"", "", [], ""⟩
  | some (.obj kvs) => decodeApplicationCommandDataFields kvs ⟨"", "", [], ""⟩
  | some _ => .error .typeMismatch

/-- Decode the members of an object into the `MessageComponentData` `d`. -/
def decodeMessageComponentDataFields : List (String × Json) → MessageComponentData →
    Except DecodeError MessageComponentData
  | [], d => .ok d
  | (k, v) :: rest, d =>
    if k = "custom_id" then
      match decodeString d.CustomId v with
      | .ok s => decodeMessageComponentDataFields rest { d with CustomId := s }
      | .error err => .error err
    else if k = "component_type" then
      match decodeInt d.ComponentType v with
      | .ok t => decodeMessageComponentDataFields rest { d with ComponentType := t }
      | .error err => .error err
    else if k = "values" then
      match v with
      | .null => decodeMessageComponentDataFields rest { d with Values := [] }
      | .arr xs =>
        match decodeStrings xs with
        | .ok ss => decodeMessageComponentDataFields rest { d with Values := ss }
        | .error err => .error err
      | _ => .error .typeMismatch
    else decodeMessageComponentDataFields rest d

/-- The call `sonic.Unmarshal(bytes, &v)` for a zero `MessageComponentData`. -/
def unmarshalMessageComponentData : RawJson → Except DecodeError MessageComponentData
  | none => .error .emptyInput
  | some .null => .ok ⟨"", 0, []⟩
  | some (.obj kvs) => decodeMessageComponentDataFields kvs ⟨"", 0, []⟩
  | some _ => .error .typeMismatch

/-- Decode the members of an object into the anonymous struct of
`ModalSubmitData.UnmarshalJSON`: `custom_id` and the raw `components`. -/
def decodeModalSubmitFields : List (String × Json) → string × RawJson →
    Except DecodeError (string × RawJson)
  | [], t => .ok t
  | (k, v) :: rest, t =>
    if k = "custom_id" then
      match decodeString t.1 v with
      | .ok s => decodeModalSubmitFields rest (s, t.2)
      | .error err => .error err
    else if k = "components" then decodeModalSubmitFields rest (t.1, some v)
    else decodeModalSubmitFields rest t

/-- The call `sonic.Unmarshal(data, &v)` for the anonymous struct. -/
def unmarshalModalSubmitFields : RawJson → Except DecodeError (string × RawJson)
  | none => .error .emptyInput
  | some .null => .ok ("", none)
  | some (.obj kvs) => decodeModalSubmitFields kvs ("", none)
  | some _ => .error .typeMismatch

/-- Read the `type` member of a component object, the first phase of the
component dispatch. -/
def decodeComponentType : List (String × Json) → int → Except DecodeError int
  | [], t => .ok t
  | (k, v) :: rest, t =>
    if k = "type" then
      match decodeInt t v with
      | .ok t' => decodeComponentType rest t'
      | .error err => .error err
    else decodeComponentType rest t

/-- Decode the members of a text input object. -/
def decodeTextInputFields : List (String × Json) → TextInput → Except DecodeError TextInput
  | [], c => .ok c
  | (k, v) :: rest, c =>
    if k = "custom_id" then
      match decodeString c.CustomId v with
      | .ok s => decodeTextInputFields rest { c with CustomId := s }
      | .error err => .error err
    else if k = "value" then
      match decodeString c.Value v with
      | .ok s => decodeTextInputFields rest { c with Value := s }
      | .error err => .error err
    else decodeTextInputFields rest c

/-- Read the `custom_id` member of a button or select menu object. -/
def decodeCustomId : List (String × Json) → string → Except DecodeError string
  | [], c => .ok c
  | (k, v) :: rest, c =>
    if k = "custom_id" then
      match decodeString c v with
      | .ok s => decodeCustomId rest s
      | .error err => .error err
    else decodeCustomId rest c

mutual

/-- Modelled from the spec: the decoder of `unmarshalableMessageComponent`
is declared outside `interaction.go`. It reads the `type` discriminant (1
action row, 2 button, 3 select menu, 4 text input, as the platform publishes
them) and builds the variant; an action row decodes its own `components` with
the same procedure, inside which (`inRow`) a further action row is rejected;
an unknown discriminant is an error. -/
def decodeComponent (inRow : Bool) : Json → Except DecodeError MessageComponent
  | .obj kvs =>
    match decodeComponentType kvs 0 with
    | .error err => .error err
    | .ok t =>
      if t = 1 then
        if inRow then .error .nestedActionRow
        else
          match decodeActionRowFields kvs [] with
          | .ok cs => .ok (.ActionRows cs)
          | .error err => .error err
      else if t = 2 then
        match decodeCustomId kvs "" with
        | .ok s => .ok (.Button ⟨s⟩)
        | .error err => .error err
      else if t = 3 then
        match decodeCustomId kvs "" with
        | .ok s => .ok (.SelectMenu ⟨s⟩)
        | .error err => .error err
      else if t = 4 then
        match decodeTextInputFields kvs ⟨"", ""⟩ with
        | .ok c => .ok (.TextInput c)
        | .error err => .error err
      else .error .unknownComponentType
  | _ => .error .typeMismatch

/-- Decode the members of an action row object: its `components`. -/
def decodeActionRowFields : List (String × Json) → List MessageComponent →
    Except DecodeError (List MessageComponent)
  | [], cs => .ok cs
  | (k, v) :: rest, cs =>
    if k = "components" then
      match v with
      | .null => decodeActionRowFields rest []
      | .arr xs =>
        match decodeComponents true xs with
        | .ok cs' => decodeActionRowFields rest cs'
        | .error err => .error err
      | _ => .error .typeMismatch
    else decodeActionRowFields rest cs

/-- Decode the elements of a `components` array, in order. -/
def decodeComponents (inRow : Bool) : List Json → Except DecodeError (List MessageComponent)
  | [] => .ok []
  | x :: xs =>
    match decodeComponent inRow x with
    | .ok c =>
      match decodeComponents inRow xs with
      | .ok cs => .ok (c :: cs)
      | .error err => .error err
    | .error err => .error err

end

/-- The call `sonic.Unmarshal(v.Components, &tmp)` for a nil
`[]unmarshalableMessageComponent`. -/
def unmarshalComponents : RawJson → Except DecodeError (List unmarshalableMessageComponent)
  | none => .error .emptyInput
  | some .null => .ok []
  | some (.arr xs) =>
    match decodeComponents false xs with
    | .ok cs => .ok (cs.map unmarshalableMessageComponent.mk)
    | .error err => .error err
  | some _ => .error .typeMismatch

/-- Decode into a pointer field to a referenced entity: `null` is the nil
pointer, an object is kept, anything else is not an entity. -/
def decodeEntity : Json → Except DecodeError (Option Json)
  | .null => .ok none
  | .obj kvs => .ok (some (.obj kvs))
  | _ => .error .typeMismatch

/-- Decode the member `k : v` of an interaction object into the embedded
`rawInteraction`, for every JSON name of `Interaction` other than `data`. -/
def decodeEnvelopeField (k : String) (v : Json) (i : Interaction) :
    Except DecodeError Interaction :=
  if k = "id" then
    match decodeString i.Id v with
    | .ok s => .ok { i with Id := s }
    | .error err => .error err
  else if k = "application_id" then
    match decodeString i.ApplicationId v with
    | .ok s => .ok { i with ApplicationId := s }
    | .error err => .error err
  else if k = "type" then
    match decodeInt i.Type_ v with
    | .ok t => .ok { i with Type_ := t }
    | .error err => .error err
  else if k = "guild_id" then
    match decodeString i.GuildId v with
    | .ok s => .ok { i with GuildId := s }
    | .error err => .error err
  else if k = "channel_id" then
    match decodeString i.ChannelId v with
    | .ok s => .ok { i with ChannelId := s }
    | .error err => .error err
  else if k = "member" then
    match decodeEntity v with
    | .ok e => .ok { i with Member := e.map GuildMember.mk }
    | .error err => .error err
  else if k = "user" then
    match decodeEntity v with
    | .ok e => .ok { i with User := e.map User.mk }
    | .error err => .error err
  else if k = "token" then
    match decodeString i.Token v with
    | .ok s => .ok { i with Token := s }
    | .error err => .error err
  else if k = "version" then
    match decodeInt i.Version v with
    | .ok t => .ok { i with Version := t }
    | .error err => .error err
  else if k = "message" then
    match decodeEntity v with
    | .ok e => .ok { i with Message := e.map Message.mk }
    | .error err => .error err
  else if k = "app_permissions" then
    match decodeQuotedInt i.AppPermissions v with
    | .ok t => .ok { i with AppPermissions := t }
    | .error err => .error err
  else if k = "locale" then
    match decodeString i.Locale v with
    | .ok s => .ok { i with Locale := s }
    | .error err => .error err
  else if k = "guild_locale" then
    match decodeString i.GuildLocale v with
    | .ok s => .ok { i with GuildLocale := s }
    | .error err => .error err
  else .ok i

/-- Decode the members of an interaction object into `tmp`: the member
`data` goes raw to the outer field, the others to the embedded struct. -/
def decodeInteractionFields : List (String × Json) → unmarshalableInteraction RawJson →
    Except DecodeError (unmarshalableInteraction RawJson)
  | [], tmp => .ok tmp
  | (k, v) :: rest, tmp =>
    if k = "data" then decodeInteractionFields rest { tmp with Data := some v }
    else
      match decodeEnvelopeField k v tmp.rawInteraction with
      | .ok i => decodeInteractionFields rest { tmp with rawInteraction := i }
      | .error err => .error err

/-- The call `sonic.Unmarshal(data, &tmp)` for a zero
`unmarshalableInteraction`. -/
def unmarshalInteraction : RawJson → Except DecodeError (unmarshalableInteraction RawJson)
  | none => .error .emptyInput
  | some .null => .ok ⟨Interaction.zero, none⟩
  | some (.obj kvs) => decodeInteractionFields kvs ⟨Interaction.zero, none⟩
  | some _ => .error .typeMismatch

/-- Decoding a member other than `data` leaves the embedded `Data` alone. -/
theorem decodeEnvelopeField_Data (k : String) (v : Json) (i r : Interaction)
    (h : decodeEnvelopeField k v i = .ok r) : r.Data = i.Data := by
  unfold decodeEnvelopeField at h
  by_cases hk : k = "id"
  · rw [if_pos hk] at h
    split at h <;> first | (cases h; rfl) | cases h
  rw [if_neg hk] at h
  clear hk
  by_cases hk : k = "application_id"
  · rw [if_pos hk] at h
    split at h <;> first | (cases h; rfl) | cases h
  rw [if_neg hk] at h
  clear hk
  by_cases hk : k = "type"
  · rw [if_pos hk] at h
    split at h <;> first | (cases h; rfl) | cases h
  rw [if_neg hk] at h
  clear hk
  by_cases hk : k = "guild_id"
  · rw [if_pos hk] at h
    split at h <;> first | (cases h; rfl) | cases h
  rw [if_neg hk] at h
  clear hk
  by_cases hk : k = "channel_id"
  · rw [if_pos hk] at h
    split at h <;> first | (cases h; rfl) | cases h
  rw [if_neg hk] at h
  clear hk
  by_cases hk : k = "member"
  · rw [if_pos hk] at h
    split at h <;> first | (cases h; rfl) | cases h
  rw [if_neg hk] at h
  clear hk
  by_cases hk : k = "user"
  · rw [if_pos hk] at h
    split at h <;> first | (cases h; rfl) | cases h
  rw [if_neg hk] at h
  clear hk
  by_cases hk : k = "token"
  · rw [if_pos hk] at h
    split at h <;> first | (cases h; rfl) | cases h
  rw [if_neg hk] at h
  clear hk
  by_cases hk : k = "version"
  · rw [if_pos hk] at h
    split at h <;> first | (cases h; rfl) | cases h
  rw [if_neg hk] at h
  clear hk
  by_cases hk : k = "message"
  · rw [if_pos hk] at h
    split at h <;> first | (cases h; rfl) | cases h
  rw [if_neg hk] at h
  clear hk
  by_cases hk : k = "app_permissions"
  · rw [if_pos hk] at h
    split at h <;> first | (cases h; rfl) | cases h
  rw [if_neg hk] at h
  clear hk
  by_cases hk : k = "locale"
  · rw [if_pos hk] at h
    split at h <;> first | (cases h; rfl) | cases h
  rw [if_neg hk] at h
  clear hk
  by_cases hk : k = "guild_locale"
  · rw [if_pos hk] at h
    split at h <;> first | (cases h; rfl) | cases h
  rw [if_neg hk] at h
  clear hk
  cases h
  rfl

/-- The embedded `Data` is never written by the envelope decode. -/
theorem decodeInteractionFields_Data (kvs : List (String × Json)) :
    ∀ tmp t : unmarshalableInteraction RawJson,
      decodeInteractionFields kvs tmp = .ok t → t.rawInteraction.Data = tmp.rawInteraction.Data := by
  induction kvs with
  | nil =>
    intro tmp t h
    simp only [decodeInteractionFields] at h
    cases h
    rfl
  | cons kv rest ih =>
    intro tmp t h
    obtain ⟨k, v⟩ := kv
    simp only [decodeInteractionFields] at h
    split at h
    · have h1 := ih _ _ h
      exact h1
    · split at h
      · rename_i i hi
        have h1 := ih _ _ h
        rw [h1]
        exact decodeEnvelopeField_Data k v _ _ hi
      · cases h

end Reference

/-- The reference decoder as the JSON library, over documents. -/
def jsonSonic : Sonic RawJson where
  unmarshalInteraction := Reference.unmarshalInteraction
  unmarshalApplicationCommandData := Reference.unmarshalApplicationCommandData
  unmarshalMessageComponentData := Reference.unmarshalMessageComponentData
  unmarshalModalSubmitFields := Reference.unmarshalModalSubmitFields
  unmarshalComponents := Reference.unmarshalComponents
  data_shadowed := by
    intro b t h
    unfold Reference.unmarshalInteraction at h
    split at h
    · cases h
    · cases h; rfl
    · exact Reference.decodeInteractionFields_Data _ _ _ h
    · cases h

/-! ## Sample values and documents -/

namespace Sample

/-- The number 42 as a `float64`: `1.3125 * 2^5`. -/
def f42 : float64 := ⟨false, 1028, 5 * 2 ^ 48, by decide, by decide⟩

/-- The number -2.5 as a `float64`: `-1.25 * 2^1`. -/
def fNeg2_5 : float64 := ⟨true, 1024, 2 ^ 50, by decide, by decide⟩

/-- The option `{"name":"n","type":4,"value":42}`. -/
def optInteger42 : ApplicationCommandInteractionDataOption :=
  .mk "n" ApplicationCommandOptionInteger (.float64 f42) [] false

/-- An Integer option whose value is absent. -/
def optIntegerNoValue : ApplicationCommandInteractionDataOption :=
  .mk "n" ApplicationCommandOptionInteger .nil [] false

/-- A String option whose value is a number. -/
def optStringHoldingNumber : ApplicationCommandInteractionDataOption :=
  .mk "s" ApplicationCommandOptionString (.float64 f42) [] false

/-- A String option. -/
def optString : ApplicationCommandInteractionDataOption :=
  .mk "s" ApplicationCommandOptionString (.string "hello") [] false

/-- A Boolean option. -/
def optBoolean : ApplicationCommandInteractionDataOption :=
  .mk "b" ApplicationCommandOptionBoolean (.bool true) [] false

/-- A User option. -/
def optUser : ApplicationCommandInteractionDataOption :=
  .mk "u" ApplicationCommandOptionUser (.string "1001") [] false

/-- A Channel option. -/
def optChannel : ApplicationCommandInteractionDataOption :=
  .mk "c" ApplicationCommandOptionChannel (.string "2002") [] false

/-- A Role option. -/
def optRole : ApplicationCommandInteractionDataOption :=
  .mk "r" ApplicationCommandOptionRole (.string "3003") [] false

/-- A Number option holding -2.5. -/
def optNumber : ApplicationCommandInteractionDataOption :=
  .mk "x" ApplicationCommandOptionNumber (.float64 fNeg2_5) [] false

/-- An Integer option holding -2.5. -/
def optIntegerNeg2_5 : ApplicationCommandInteractionDataOption :=
  .mk "x" ApplicationCommandOptionInteger (.float64 fNeg2_5) [] false

/-- Number of binary digits of `n`, for `n` below `2 ^ fuel`. -/
def bitLength : Nat → Nat → Nat
  | 0, _ => 0
  | fuel + 1, n => if n = 0 then 0 else bitLength fuel (n / 2) + 1

/-- The `float64` equal to the natural number `n`, for `n < 2^53`. -/
def floatOfNat (n : Nat) : float64 :=
  if n = 0 then float64.zero
  else
    ⟨false, (1023 + (bitLength 64 n - 1)) % 2048, (n * 2 ^ (52 - (bitLength 64 n - 1))) % 2 ^ 52,
      Nat.mod_lt _ (by decide), Nat.mod_lt _ (by decide)⟩

/-- The JSON number written as the decimal integer `n`, for `n < 2^53`. -/
def number (n : Nat) : Json := .num ⟨some (n : Int), floatOfNat n⟩

/-- The command payload `{"id":"1","name":"ping","options":[{"name":"n","type":4,"value":42}]}`. -/
def pingData : Json :=
  .obj [("id", .str "1"), ("name", .str "ping"),
    ("options", .arr [.obj [("name", .str "n"), ("type", number 4), ("value", number 42)]])]

/-- The document `{"id":"9","application_id":"7","type":99,"token":"tok","version":1}`. -/
def docUnknownKind : Json :=
  .obj [("id", .str "9"), ("application_id", .str "7"), ("type", number 99),
    ("token", .str "tok"), ("version", number 1)]

/-- The envelope decoded from `docUnknownKind`. -/
def envUnknownKind : Interaction :=
  { Interaction.zero with Id := "9", ApplicationId := "7", Type_ := 99, Token := "tok", Version := 1 }

/-- The document `{"id":"9","type":2,"token":"tok","data":D}` with `D` the
command payload `pingData`. -/
def docCommand : Json :=
  .obj [("id", .str "9"), ("type", number 2), ("token", .str "tok"), ("data", pingData)]

/-- The same document with `"type":4`: an autocomplete interaction. -/
def docAutocomplete : Json :=
  .obj [("id", .str "9"), ("type", number 4), ("token", .str "tok"), ("data", pingData)]

/-- The same document with `"type":1`: a ping that carries a `data` member. -/
def docPingWithData : Json :=
  .obj [("id", .str "9"), ("type", number 1), ("token", .str "tok"), ("data", pingData)]

/-- The document
`{"id":"9","type":3,"token":"tok","data":{"custom_id":"go","component_type":2}}`. -/
def docComponent : Json :=
  .obj [("id", .str "9"), ("type", number 3), ("token", .str "tok"),
    ("data", .obj [("custom_id", .str "go"), ("component_type", number 2)])]

/-- The modal payload
`{"custom_id":"form","components":[{"type":1,"components":[{"type":4,"custom_id":"email","value":"a@b.com"}]}]}`. -/
def modalData : Json :=
  .obj [("custom_id", .str "form"),
    ("components", .arr [.obj [("type", number 1),
      ("components", .arr [.obj [("type", number 4), ("custom_id", .str "email"),
        ("value", .str "a@b.com")]])]])]

/-- The document `{"id":"9","type":5,"token":"tok","data":M}` with `M` the
modal payload `modalData`. -/
def docModal : Json :=
  .obj [("id", .str "9"), ("type", number 5), ("token", .str "tok"), ("data", modalData)]

/-- The document `{"id":"new","type":2,"token":"tok","data":"oops"}`: a
command interaction whose `data` is a string. -/
def docCommandBadData : Json :=
  .obj [("id", .str "new"), ("type", number 2), ("token", .str "tok"), ("data", .str "oops")]

/-- The document `{"id":"new","type":"two"}`: the `type` is a string. -/
def docBadEnvelope : Json :=
  .obj [("id", .str "new"), ("type", .str "two")]

/-- The modal payload `{"custom_id":"new","components":"oops"}`. -/
def modalBadComponents : Json :=
  .obj [("custom_id", .str "new"), ("components", .str "oops")]

/-- An interaction decoded earlier, the receiver of a second decode. -/
def priorInteraction : Interaction :=
  { Interaction.zero with
    Id := "old"
    Type_ := 3
    Token := "t0"
    Data := some (.MessageComponentData ⟨"go", 2, []⟩) }

/-- A modal payload decoded earlier. -/
def priorModal : ModalSubmitData := ⟨"old", [.Button ⟨"ok"⟩]⟩

/-- The envelope decoded from the documents with `"id":"9"`, by `type`. -/
def env9 (type : int) : Interaction :=
  { Interaction.zero with Id := "9", Type_ := type, Token := "tok" }

/-- The command payload decoded from `pingData`. -/
def pingPayload : ApplicationCommandData :=
  ⟨"1", "ping", [optInteger42], ""⟩

/-- The modal payload decoded from `modalData`. -/
def modalPayload : ModalSubmitData :=
  ⟨"form", [.ActionRows [.TextInput ⟨"email", "a@b.com"⟩]]⟩

end Sample

/-! ## The sequence searched by `Component`, as the specification words it -/

/-- The sequence searched, in the words of the specification: the top-level
components in order, each action row replaced by its direct children. -/
def rowsUnfolded : List MessageComponent → List MessageComponent
  | [] => []
  | .ActionRows components :: rest => components ++ rowsUnfolded rest
  | c :: rest => c :: rowsUnfolded rest

/-- A leaf (text input, button or select menu) whose `CustomId` is `customId`. -/
def isLeafWithId (customId : string) : MessageComponent → Bool
  | .TextInput c => decide (c.CustomId = customId)
  | .Button c => decide (c.CustomId = customId)
  | .SelectMenu c => decide (c.CustomId = customId)
  | _ => false

/-- Replace the children of an action row by `f` of them. -/
def rewriteRow (f : List MessageComponent → List MessageComponent) :
    MessageComponent → MessageComponent
  | .ActionRows components => .ActionRows (f components)
  | c => c

/-- Replace, in a top-level component, the children of every action row that
sits inside an action row. -/
def rewriteNestedRows (f : List MessageComponent → List MessageComponent) :
    MessageComponent → MessageComponent
  | .ActionRows components => .ActionRows (components.map (rewriteRow f))
  | c => c

/-! ## Further sample options -/

namespace Sample

/-- A Mentionable option holding an identifier string. -/
def optMentionable : ApplicationCommandInteractionDataOption :=
  .mk "who" ApplicationCommandOptionMentionable (.string "4004") [] false

/-- A SubCommand option that holds a number as its value. -/
def optSubCommandWithValue : ApplicationCommandInteractionDataOption :=
  .mk "sub" ApplicationCommandOptionSubCommand (.float64 f42) [optString] false

/-- A SubCommandGroup option that holds a boolean as its value. -/
def optGroupWithValue : ApplicationCommandInteractionDataOption :=
  .mk "grp" ApplicationCommandOptionSubCommandGroup (.bool true) [] false

end Sample

/-! ## The leaves of a component tree -/

mutual

/-- The leaves (text inputs, buttons, select menus) of a component, at any
depth, in tree order. -/
def leavesOf : MessageComponent → List MessageComponent
  | .ActionRows components => leavesOfList components
  | .TextInput c => [.TextInput c]
  | .Button c => [.Button c]
  | .SelectMenu c => [.SelectMenu c]
  | .nil => []
  | .other _ => []

/-- The leaves of a sequence of components, at any depth, in tree order. -/
def leavesOfList : List MessageComponent → List MessageComponent
  | [] => []
  | c :: rest => leavesOf c ++ leavesOfList rest

end

/-- A text input, button or select menu. -/
def isLeaf : MessageComponent → Bool
  | .TextInput _ => true
  | .Button _ => true
  | .SelectMenu _ => true
  | _ => false

/-- An action row. -/
def isRow : MessageComponent → Bool
  | .ActionRows _ => true
  | _ => false

/-- The `CustomId` of a leaf (the empty string for what is not a leaf). -/
def customIdOf : MessageComponent → string
  | .TextInput c => c.CustomId
  | .Button c => c.CustomId
  | .SelectMenu c => c.CustomId
  | _ => ""

/-- Custom identifiers are unique within the tree: no two leaves, at any
depth, carry the same one. -/
def uniqueCustomIds (components : List MessageComponent) : Prop :=
  ((leavesOfList components).map customIdOf).Nodup

/-- Modelled from the spec: the shape of a component tree, "an ActionRow owns
an ordered sequence of non-row child components (one level of nesting only)":
no action row of the sequence holds an action row. -/
def rowsHoldNoRows : List MessageComponent → Bool
  | [] => true
  | .ActionRows components :: rest =>
    components.all (fun c => !isRow c) && rowsHoldNoRows rest
  | _ :: rest => rowsHoldNoRows rest

namespace Sample

/-- A modal payload whose only text input sits in a row inside a row. -/
def modalNestedRows : ModalSubmitData :=
  ⟨"form", [.ActionRows [.ActionRows [.TextInput ⟨"deep", "v"⟩]]]⟩

/-- A modal payload with a button at the top level and two inputs in a row. -/
def modalFlat : ModalSubmitData :=
  ⟨"form", [.Button ⟨"ok"⟩,
    .ActionRows [.TextInput ⟨"email", "a@b.com"⟩, .TextInput ⟨"name", "Ann"⟩]]⟩

end Sample

/-! ## Members of a wire object -/

/-- The last member of an object with the name `k`: the one a field-wise
decode leaves in the field. -/
def lastMember (k : String) : List (String × Json) → Option Json
  | [] => none
  | (k', v) :: rest =>
    match lastMember k rest with
    | some w => some w
    | none => if k' = k then some v else none

/-! ## Wire documents with parameters -/

namespace Sample

/-- The option object `{"name":N,"type":T,"value":V}`. -/
def optionObject (name : String) (type : JNumber) (value : Json) : Json :=
  .obj [("name", .str name), ("type", .num type), ("value", value)]

/-- The command payload `{"id":"1","name":"ping","options":[...]}`. -/
def commandData (options : List Json) : Json :=
  .obj [("id", .str "1"), ("name", .str "ping"), ("options", .arr options)]

/-- The document `{"id":"9","type":2,"token":"tok","data":D}` with `D` the
command payload over `options`. -/
def commandDocument (options : List Json) : Json :=
  .obj [("id", .str "9"), ("type", number 2), ("token", .str "tok"),
    ("data", commandData options)]

/-- The members of `{"name":"sub","type":1,"value":"x","options":[]}`: a
sub-command that carries a value. -/
def subCommandWithValueMembers : List (String × Json) :=
  [("name", .str "sub"), ("type", number 1), ("value", .str "x"), ("options", .arr [])]

/-- The members of
`{"name":"n","type":4,"value":42,"options":[{"name":"c","type":3,"value":"y"}]}`:
an Integer option that carries child options. -/
def integerWithChildrenMembers : List (String × Json) :=
  [("name", .str "n"), ("type", number 4), ("value", number 42),
    ("options", .arr [optionObject "c" ⟨some 3, floatOfNat 3⟩ (.str "y")])]

/-- An Attachment option as the wire sends it: the value is the identifier of
the attachment, a string. -/
def optAttachmentId : ApplicationCommandInteractionDataOption :=
  .mk "file" ApplicationCommandOptionAttachment (.string "5005") [] false

/-- An Attachment option whose value is absent. -/
def optAttachmentNoValue : ApplicationCommandInteractionDataOption :=
  .mk "file" ApplicationCommandOptionAttachment .nil [] false

end Sample

/-! ## Option objects as the platform writes them

The wire objects on which the reference decoder is the JSON library: member
names written exactly as the JSON names of the fields, each at most once, no
`null` element in an array, numbers within the `float64` range. -/

/-- A scalar `value` member: a string, a boolean or a number. -/
inductive WireScalar
  | str (s : String)
  | bool (b : Bool)
  | num (n : JNumber)

namespace WireScalar

/-- The JSON of the scalar. -/
def toJson : WireScalar → Json
  | .str s => .str s
  | .bool b => .bool b
  | .num n => .num n

/-- The Go value an `interface{}` receives for the scalar. -/
def decoded : WireScalar → Value
  | .str s => .string s
  | .bool b => .bool b
  | .num n => .float64 n.asFloat

/-- The number, if it is one, does not overflow `float64`. -/
def readable : WireScalar → Bool
  | .num n => n.asFloat.isFinite
  | _ => true

end WireScalar

/-- An option object with its members in the order `name`, `type`, `value`,
`options`, `focused`, the last three optional: `scalar` is written without an
`options` member, `parent` with one. -/
inductive WireOption
  | scalar (name : String) (type : JNumber) (value : Option WireScalar)
      (focused : Option Bool)
  | parent (name : String) (type : JNumber) (value : Option WireScalar)
      (options : List WireOption) (focused : Option Bool)

namespace WireOption

/-- The `type` member. -/
def type : WireOption → JNumber
  | scalar _ t _ _ => t
  | parent _ t _ _ _ => t

/-- The `value` member, if written. -/
def value : WireOption → Option WireScalar
  | scalar _ _ v _ => v
  | parent _ _ v _ _ => v

/-- The elements of the `options` member; none when it is not written. -/
def children : WireOption → List WireOption
  | scalar _ _ _ _ => []
  | parent _ _ _ os _ => os

/-- The integer a `type` member is read as. -/
def typeValue (w : WireOption) : Int := w.type.asInt.getD 0

/-- The member `value` of the JSON object, when written. -/
def valueMember : Option WireScalar → List (String × Json)
  | some s => [("value", s.toJson)]
  | none => []

/-- The member `focused` of the JSON object, when written. -/
def focusedMember : Option Bool → List (String × Json)
  | some b => [("focused", .bool b)]
  | none => []

mutual

/-- The JSON object of the option. -/
def toJson : WireOption → Json
  | scalar name t v f =>
    .obj (("name", .str name) :: ("type", .num t) :: (valueMember v ++ focusedMember f))
  | parent name t v os f =>
    .obj (("name", .str name) :: ("type", .num t) ::
      (valueMember v ++ ("options", .arr (toJsonList os)) :: focusedMember f))

/-- The JSON objects of a sequence of options. -/
def toJsonList : List WireOption → List Json
  | [] => []
  | w :: ws => toJson w :: toJsonList ws

end

/-- The Go value the `Value` field receives: nil without a `value` member. -/
def decodedValue : Option WireScalar → Value
  | some s => s.decoded
  | none => .nil

mutual

/-- The option the object stands for, field by field: `Type` is the integer
sent, `Value` the scalar sent or nil, `Options` the children sent. -/
def decoded : WireOption → ApplicationCommandInteractionDataOption
  | scalar name t v f => .mk name (t.asInt.getD 0) (decodedValue v) [] (f.getD false)
  | parent name t v os f =>
    .mk name (t.asInt.getD 0) (decodedValue v) (decodedList os) (f.getD false)

/-- The options a sequence of objects stands for. -/
def decodedList : List WireOption → List ApplicationCommandInteractionDataOption
  | [] => []
  | w :: ws => decoded w :: decodedList ws

end

/-- The `type` is an integer literal that fits a Go `int` (64 bits). -/
def typeFits (t : JNumber) : Bool :=
  match t.asInt with
  | some k => decide (-(2 : Int) ^ 63 ≤ k ∧ k < (2 : Int) ^ 63)
  | none => false

/-- The `value`, if written, is readable. -/
def valueReadable : Option WireScalar → Bool
  | some s => s.readable
  | none => true

mutual

/-- At every depth the `type` fits 64 bits and the numbers fit `float64`. -/
def wellFormed : WireOption → Bool
  | scalar _ t v _ => typeFits t && valueReadable v
  | parent _ t v os _ => typeFits t && valueReadable v && wellFormedList os

/-- Every option of the sequence is well formed. -/
def wellFormedList : List WireOption → Bool
  | [] => true
  | w :: ws => wellFormed w && wellFormedList ws

end

mutual

/-- Levels of options: 1 for an option without children. -/
def depth : WireOption → Nat
  | scalar _ _ _ _ => 1
  | parent _ _ _ os _ => depthList os + 1

/-- Levels of options in a sequence: 0 for the empty one. -/
def depthList : List WireOption → Nat
  | [] => 0
  | w :: ws => max (depth w) (depthList ws)

end

end WireOption

namespace Sample

/-- The command payload `{"id":C,"name":N,"options":[...]}`. -/
def commandPayload (dataId dataName : String) (options : List Json) : Json :=
  .obj [("id", .str dataId), ("name", .str dataName), ("options", .arr options)]

/-- The interaction object `{"id":I,"type":K,"token":T,"data":D}` whose `data`
is the command payload `{"id":C,"name":N,"options":[...]}`. -/
def commandInteraction (kind : Nat) (id token dataId dataName : String)
    (options : List Json) : Json :=
  .obj [("id", .str id), ("type", number kind), ("token", .str token),
    ("data", commandPayload dataId dataName options)]

/-- The envelope decoded from `commandInteraction`. -/
def commandEnvelope (kind : int) (id token : String) : Interaction :=
  { Interaction.zero with Id := id, Type_ := kind, Token := token }

/-- The option object `{"name":"n","type":4,"value":42}`. -/
def wireInteger42 : WireOption :=
  .scalar "n" ⟨some 4, floatOfNat 4⟩ (some (.num ⟨some 42, f42⟩)) none

/-- The option object `{"name":"odd","type":999,"value":"x"}`. -/
def wireUnknownKind : WireOption :=
  .scalar "odd" ⟨some 999, floatOfNat 999⟩ (some (.str "x")) none

/-- The option object `{"name":"sub","type":1,"value":"x","options":[]}`: a
sub-command that carries a value. -/
def wireSubCommandWithValue : WireOption :=
  .parent "sub" ⟨some 1, floatOfNat 1⟩ (some (.str "x")) [] none

/-- The option object
`{"name":"n","type":4,"value":42,"options":[{"name":"c","type":3,"value":"y"}]}`:
an Integer option that carries a child option. -/
def wireIntegerWithChildren : WireOption :=
  .parent "n" ⟨some 4, floatOfNat 4⟩ (some (.num ⟨some 42, f42⟩))
    [.scalar "c" ⟨some 3, floatOfNat 3⟩ (some (.str "y")) none] none

/-- The option object
`{"name":"sub","type":1,"options":[{"name":"n","type":4,"value":42},{"name":"odd","type":999,"value":"x"}]}`. -/
def wireSubCommandWithUnknown : WireOption :=
  .parent "sub" ⟨some 1, floatOfNat 1⟩ none [wireInteger42, wireUnknownKind] none

end Sample

/-! ## Truncation of a `float64` -/

namespace float64

theorem magRat_nonneg (x : float64) : 0 ≤ x.magRat := by
  unfold magRat
  positivity

/-- Shifting the fraction bits out is the floor of the magnitude. -/
theorem floor_magRat (x : float64) : ⌊x.magRat⌋ = (x.truncMag : Int) := by
  unfold magRat truncMag
  by_cases h : 1075 ≤ x.bexp
  · rw [if_pos h]
    have e : ((x.bexp : Int) - 1075) = ((x.bexp - 1075 : ℕ) : Int) := by omega
    rw [e, zpow_natCast]
    have hc : (x.mant : ℚ) * 2 ^ (x.bexp - 1075) = ((x.mant * 2 ^ (x.bexp - 1075) : ℕ) : ℚ) := by
      push_cast; ring
    rw [hc, Int.floor_natCast]
  · rw [if_neg h]
    have e : ((x.bexp : Int) - 1075) = -((1075 - x.bexp : ℕ) : Int) := by omega
    rw [e, zpow_neg, zpow_natCast]
    have hc : (x.mant : ℚ) * (2 ^ (1075 - x.bexp))⁻¹
        = ((x.mant : ℕ) : ℚ) / ((2 ^ (1075 - x.bexp) : ℕ) : ℚ) := by
      push_cast; rw [div_eq_mul_inv]
    rw [hc, Rat.floor_natCast_div_natCast]
    norm_cast

theorem toRat_eq (x : float64) : x.toRat = if x.sign then -x.magRat else x.magRat := by
  unfold toRat magRat
  split <;> ring

/-- The bit-level integer part is the truncation toward zero of the value. -/
theorem truncTowardZero_toRat (x : float64) : truncTowardZero x.toRat = x.trunc := by
  have h0 := magRat_nonneg x
  have hf := floor_magRat x
  rw [toRat_eq]
  unfold truncTowardZero trunc
  cases hs : x.sign
  · simp [h0, hf]
  · simp only [if_true]
    by_cases hz : 0 ≤ -x.magRat
    · have hm : x.magRat = 0 := le_antisymm (by linarith) h0
      rw [if_pos hz]
      rw [hm] at hf
      simp at hf
      simp [hm, ← hf]
    · rw [if_neg hz, Int.ceil_neg, hf]

/-- A value inside the `int64` range has its truncation inside it. -/
theorem trunc_range (x : float64) (hlo : -(2 : ℚ) ^ 63 ≤ x.toRat)
    (hhi : x.toRat ≤ (2 : ℚ) ^ 63 - 1) :
    -(2 : Int) ^ 63 ≤ x.trunc ∧ x.trunc < (2 : Int) ^ 63 := by
  rw [← truncTowardZero_toRat]
  unfold truncTowardZero
  split
  · rename_i h
    constructor
    · have h1 : (0 : Int) ≤ ⌊x.toRat⌋ := Int.floor_nonneg.mpr h
      have h2 : -(2 : Int) ^ 63 ≤ 0 := by norm_num
      omega
    · rw [Int.floor_lt]
      push_cast
      linarith
  · rename_i h
    push_neg at h
    constructor
    · rw [Int.le_ceil_iff]
      push_cast
      linarith
    · have h1 : ⌈x.toRat⌉ ≤ 0 := Int.ceil_le.mpr (by push_cast; linarith)
      have h2 : (0 : Int) < (2 : Int) ^ 63 := by norm_num
      omega

end float64

/-! ## Sample values, evaluated -/

namespace Sample

theorem f42_toRat : f42.toRat = 42 := by
  simp [float64.toRat, f42, float64.mant, float64.bexp]
  norm_num

theorem fNeg2_5_toRat : fNeg2_5.toRat = -5 / 2 := by
  simp [float64.toRat, fNeg2_5, float64.mant, float64.bexp]
  norm_num

end Sample

/-! ## Scalar accessors of a command option -/

/-- C1: for an option that is neither a SubCommand nor a SubCommandGroup, and
whatever its Value, every accessor not matching its Type returns its zero
value: `Int` gives 0 unless the Type is Integer, `Float` and `Number` give 0
unless it is Number, `String` gives the empty string unless it is String,
`Bool` gives false unless it is Boolean, `UserId`, `ChannelId` and `RoleId`
give the empty string unless it is User, Channel or Role, and `Attachment`
gives nil unless it is Attachment. -/
theorem accessor_mismatch_returns_zero (o : ApplicationCommandInteractionDataOption)
    (_hSub : o.Type_ ≠ ApplicationCommandOptionSubCommand)
    (_hGroup : o.Type_ ≠ ApplicationCommandOptionSubCommandGroup) :
    (o.Type_ ≠ ApplicationCommandOptionInteger → o.Int = .ok 0) ∧
    (o.Type_ ≠ ApplicationCommandOptionNumber →
      o.Float = .ok float64.zero ∧ o.Number = .ok float64.zero) ∧
    (o.Type_ ≠ ApplicationCommandOptionString → o.String = .ok "") ∧
    (o.Type_ ≠ ApplicationCommandOptionBoolean → o.Bool = .ok false) ∧
    (o.Type_ ≠ ApplicationCommandOptionUser → o.UserId = .ok "") ∧
    (o.Type_ ≠ ApplicationCommandOptionChannel → o.ChannelId = .ok "") ∧
    (o.Type_ ≠ ApplicationCommandOptionRole → o.RoleId = .ok "") ∧
    (o.Type_ ≠ ApplicationCommandOptionAttachment → o.Attachment = .ok none) := by
  refine ⟨?_, ?_, ?_, ?_, ?_, ?_, ?_, ?_⟩
  · intro h; unfold ApplicationCommandInteractionDataOption.Int; rw [if_pos h]
  · intro h
    constructor
    · unfold ApplicationCommandInteractionDataOption.Float; rw [if_pos h]
    · unfold ApplicationCommandInteractionDataOption.Number; rw [if_pos h]
  · intro h; unfold ApplicationCommandInteractionDataOption.String; rw [if_pos h]
  · intro h; unfold ApplicationCommandInteractionDataOption.Bool; rw [if_pos h]
  · intro h; unfold ApplicationCommandInteractionDataOption.UserId; rw [if_pos h]
  · intro h; unfold ApplicationCommandInteractionDataOption.ChannelId; rw [if_pos h]
  · intro h; unfold ApplicationCommandInteractionDataOption.RoleId; rw [if_pos h]
  · intro h; unfold ApplicationCommandInteractionDataOption.Attachment; rw [if_pos h]

/-- The Integer option holding 42 reads as zero through every other accessor,
and the String option holding "hello" reads as 0 through `Int`. -/
theorem accessor_mismatch_returns_zero_witness :
    Sample.optInteger42.Float = .ok float64.zero ∧
    Sample.optInteger42.Number = .ok float64.zero ∧
    Sample.optInteger42.String = .ok "" ∧
    Sample.optInteger42.Bool = .ok false ∧
    Sample.optInteger42.UserId = .ok "" ∧
    Sample.optInteger42.ChannelId = .ok "" ∧
    Sample.optInteger42.RoleId = .ok "" ∧
    Sample.optInteger42.Attachment = .ok none ∧
    Sample.optString.Int = .ok 0 :=
  have h := accessor_mismatch_returns_zero Sample.optInteger42 (by decide) (by decide)
  have h' := accessor_mismatch_returns_zero Sample.optString (by decide) (by decide)
  ⟨(h.2.1 (by decide)).1, (h.2.1 (by decide)).2, h.2.2.1 (by decide), h.2.2.2.1 (by decide),
    h.2.2.2.2.1 (by decide), h.2.2.2.2.2.1 (by decide), h.2.2.2.2.2.2.1 (by decide),
    h.2.2.2.2.2.2.2 (by decide), h'.1 (by decide)⟩

/-- C2, as the claim states it, fails: `Int` on an Integer option whose Value
is absent faults, and `String` on a String option whose Value is a number
faults. -/
theorem accessor_faults_on_wrong_dynamic_type :
    Sample.optIntegerNoValue.Int = .error Panic.interfaceConversion ∧
    Sample.optStringHoldingNumber.String = .error Panic.interfaceConversion :=
  ⟨rfl, rfl⟩

/-- C2, amended: an accessor returns a value exactly when the Type of the
option is not the accessor's Type (it then returns the zero value) or the
Value holds the dynamic type the accessor asserts (`float64` for `Int`,
`Float` and `Number`, `string` for `String`, `UserId`, `ChannelId` and
`RoleId`, `bool` for `Bool`, `*Attachment` for `Attachment`); in every other
case, an absent Value included, it faults. -/
theorem accessor_returns_iff (o : ApplicationCommandInteractionDataOption) :
    ((∃ r, o.Int = .ok r) ↔
      (o.Type_ ≠ ApplicationCommandOptionInteger ∨ ∃ x, o.Value = .float64 x)) ∧
    ((∃ r, o.Float = .ok r) ↔
      (o.Type_ ≠ ApplicationCommandOptionNumber ∨ ∃ x, o.Value = .float64 x)) ∧
    ((∃ r, o.Number = .ok r) ↔
      (o.Type_ ≠ ApplicationCommandOptionNumber ∨ ∃ x, o.Value = .float64 x)) ∧
    ((∃ r, o.String = .ok r) ↔
      (o.Type_ ≠ ApplicationCommandOptionString ∨ ∃ s, o.Value = .string s)) ∧
    ((∃ r, o.Bool = .ok r) ↔
      (o.Type_ ≠ ApplicationCommandOptionBoolean ∨ ∃ b, o.Value = .bool b)) ∧
    ((∃ r, o.UserId = .ok r) ↔
      (o.Type_ ≠ ApplicationCommandOptionUser ∨ ∃ s, o.Value = .string s)) ∧
    ((∃ r, o.ChannelId = .ok r) ↔
      (o.Type_ ≠ ApplicationCommandOptionChannel ∨ ∃ s, o.Value = .string s)) ∧
    ((∃ r, o.RoleId = .ok r) ↔
      (o.Type_ ≠ ApplicationCommandOptionRole ∨ ∃ s, o.Value = .string s)) ∧
    ((∃ r, o.Attachment = .ok r) ↔
      (o.Type_ ≠ ApplicationCommandOptionAttachment ∨ ∃ p, o.Value = .attachment p)) ∧
    (o.Type_ ≠ ApplicationCommandOptionInteger → o.Int = .ok 0) ∧
    (o.Type_ ≠ ApplicationCommandOptionNumber → o.Float = .ok float64.zero) ∧
    (o.Type_ ≠ ApplicationCommandOptionNumber → o.Number = .ok float64.zero) ∧
    (o.Type_ ≠ ApplicationCommandOptionString → o.String = .ok "") ∧
    (o.Type_ ≠ ApplicationCommandOptionBoolean → o.Bool = .ok false) ∧
    (o.Type_ ≠ ApplicationCommandOptionUser → o.UserId = .ok "") ∧
    (o.Type_ ≠ ApplicationCommandOptionChannel → o.ChannelId = .ok "") ∧
    (o.Type_ ≠ ApplicationCommandOptionRole → o.RoleId = .ok "") ∧
    (o.Type_ ≠ ApplicationCommandOptionAttachment → o.Attachment = .ok none) := by
  refine ⟨?_, ?_, ?_, ?_, ?_, ?_, ?_, ?_, ?_, ?_, ?_, ?_, ?_, ?_, ?_, ?_, ?_, ?_⟩
  · unfold ApplicationCommandInteractionDataOption.Int
    by_cases h : o.Type_ ≠ ApplicationCommandOptionInteger
    · simp [h]
    · rw [if_neg h]; cases o.Value <;> simp [h]
  · unfold ApplicationCommandInteractionDataOption.Float
    by_cases h : o.Type_ ≠ ApplicationCommandOptionNumber
    · simp [h]
    · rw [if_neg h]; cases o.Value <;> simp [h]
  · unfold ApplicationCommandInteractionDataOption.Number
    by_cases h : o.Type_ ≠ ApplicationCommandOptionNumber
    · simp [h]
    · rw [if_neg h]; cases o.Value <;> simp [h]
  · unfold ApplicationCommandInteractionDataOption.String
    by_cases h : o.Type_ ≠ ApplicationCommandOptionString
    · simp [h]
    · rw [if_neg h]; cases o.Value <;> simp [h]
  · unfold ApplicationCommandInteractionDataOption.Bool
    by_cases h : o.Type_ ≠ ApplicationCommandOptionBoolean
    · simp [h]
    · rw [if_neg h]; cases o.Value <;> simp [h]
  · unfold ApplicationCommandInteractionDataOption.UserId
    by_cases h : o.Type_ ≠ ApplicationCommandOptionUser
    · simp [h]
    · rw [if_neg h]; cases o.Value <;> simp [h]
  · unfold ApplicationCommandInteractionDataOption.ChannelId
    by_cases h : o.Type_ ≠ ApplicationCommandOptionChannel
    · simp [h]
    · rw [if_neg h]; cases o.Value <;> simp [h]
  · unfold ApplicationCommandInteractionDataOption.RoleId
    by_cases h : o.Type_ ≠ ApplicationCommandOptionRole
    · simp [h]
    · rw [if_neg h]; cases o.Value <;> simp [h]
  · unfold ApplicationCommandInteractionDataOption.Attachment
    by_cases h : o.Type_ ≠ ApplicationCommandOptionAttachment
    · simp [h]
    · rw [if_neg h]; cases o.Value <;> simp [h]
  · intro h; unfold ApplicationCommandInteractionDataOption.Int; rw [if_pos h]
  · intro h; unfold ApplicationCommandInteractionDataOption.Float; rw [if_pos h]
  · intro h; unfold ApplicationCommandInteractionDataOption.Number; rw [if_pos h]
  · intro h; unfold ApplicationCommandInteractionDataOption.String; rw [if_pos h]
  · intro h; unfold ApplicationCommandInteractionDataOption.Bool; rw [if_pos h]
  · intro h; unfold ApplicationCommandInteractionDataOption.UserId; rw [if_pos h]
  · intro h; unfold ApplicationCommandInteractionDataOption.ChannelId; rw [if_pos h]
  · intro h; unfold ApplicationCommandInteractionDataOption.RoleId; rw [if_pos h]
  · intro h; unfold ApplicationCommandInteractionDataOption.Attachment; rw [if_pos h]

/-- The String option holding "hello" returns 0 through `Int`, its Type not
being Integer, and returns through `String`, its Value being a string; the
Integer option without a value does not return through `Int`. -/
theorem accessor_returns_iff_witness :
    Sample.optString.Int = .ok 0 ∧
    (∃ r, Sample.optString.String = .ok r) ∧
    ¬(∃ r, Sample.optIntegerNoValue.Int = .ok r) :=
  ⟨(accessor_returns_iff Sample.optString).2.2.2.2.2.2.2.2.2.1 (by decide),
    (accessor_returns_iff Sample.optString).2.2.2.1.mpr (Or.inr ⟨"hello", rfl⟩),
    fun h => by
      rcases (accessor_returns_iff Sample.optIntegerNoValue).1.mp h with h1 | ⟨x, h2⟩
      · exact h1 rfl
      · cases h2⟩

/-- C3: when the Type of an option matches the accessor and its Value holds
a scalar of the announced dynamic type, the accessor returns that scalar
unchanged: `String` the string of a String option, `Bool` the boolean of a
Boolean option, `UserId`, `ChannelId` and `RoleId` the identifier string of a
User, Channel or Role option, and `Float` and `Number` the very `float64` of
a Number option. -/
theorem accessor_match_returns_value (o : ApplicationCommandInteractionDataOption) :
    (∀ s, o.Type_ = ApplicationCommandOptionString → o.Value = .string s →
      o.String = .ok s) ∧
    (∀ b, o.Type_ = ApplicationCommandOptionBoolean → o.Value = .bool b →
      o.Bool = .ok b) ∧
    (∀ s, o.Type_ = ApplicationCommandOptionUser → o.Value = .string s →
      o.UserId = .ok s) ∧
    (∀ s, o.Type_ = ApplicationCommandOptionChannel → o.Value = .string s →
      o.ChannelId = .ok s) ∧
    (∀ s, o.Type_ = ApplicationCommandOptionRole → o.Value = .string s →
      o.RoleId = .ok s) ∧
    (∀ x, o.Type_ = ApplicationCommandOptionNumber → o.Value = .float64 x →
      o.Float = .ok x ∧ o.Number = .ok x) := by
  refine ⟨?_, ?_, ?_, ?_, ?_, ?_⟩
  · intro s hT hV
    unfold ApplicationCommandInteractionDataOption.String
    rw [if_neg (not_not.mpr hT), hV]
  · intro b hT hV
    unfold ApplicationCommandInteractionDataOption.Bool
    rw [if_neg (not_not.mpr hT), hV]
  · intro s hT hV
    unfold ApplicationCommandInteractionDataOption.UserId
    rw [if_neg (not_not.mpr hT), hV]
  · intro s hT hV
    unfold ApplicationCommandInteractionDataOption.ChannelId
    rw [if_neg (not_not.mpr hT), hV]
  · intro s hT hV
    unfold ApplicationCommandInteractionDataOption.RoleId
    rw [if_neg (not_not.mpr hT), hV]
  · intro x hT hV
    constructor
    · unfold ApplicationCommandInteractionDataOption.Float
      rw [if_neg (not_not.mpr hT), hV]
    · unfold ApplicationCommandInteractionDataOption.Number
      rw [if_neg (not_not.mpr hT), hV]

/-- One option of each scalar kind, read through its own accessor. -/
theorem accessor_match_returns_value_witness :
    Sample.optString.String = .ok "hello" ∧
    Sample.optBoolean.Bool = .ok true ∧
    Sample.optUser.UserId = .ok "1001" ∧
    Sample.optChannel.ChannelId = .ok "2002" ∧
    Sample.optRole.RoleId = .ok "3003" ∧
    Sample.optNumber.Float = .ok Sample.fNeg2_5 ∧
    Sample.optNumber.Number = .ok Sample.fNeg2_5 :=
  ⟨(accessor_match_returns_value Sample.optString).1 "hello" rfl rfl,
    (accessor_match_returns_value Sample.optBoolean).2.1 true rfl rfl,
    (accessor_match_returns_value Sample.optUser).2.2.1 "1001" rfl rfl,
    (accessor_match_returns_value Sample.optChannel).2.2.2.1 "2002" rfl rfl,
    (accessor_match_returns_value Sample.optRole).2.2.2.2.1 "3003" rfl rfl,
    ((accessor_match_returns_value Sample.optNumber).2.2.2.2.2 Sample.fNeg2_5 rfl rfl).1,
    ((accessor_match_returns_value Sample.optNumber).2.2.2.2.2 Sample.fNeg2_5 rfl rfl).2⟩

/-- C4: for an Integer option whose Value is a finite number `x` inside the
signed 64-bit range, `Int` returns `x` truncated toward zero; in particular,
when `x` is an integer `n`, `Int` returns `n`. -/
theorem Int_truncates_toward_zero (o : ApplicationCommandInteractionDataOption) (x : float64)
    (hT : o.Type_ = ApplicationCommandOptionInteger) (hV : o.Value = .float64 x)
    (hfin : x.isFinite = true)
    (hlo : -(2 : ℚ) ^ 63 ≤ x.toRat) (hhi : x.toRat ≤ (2 : ℚ) ^ 63 - 1) :
    o.Int = .ok (truncTowardZero x.toRat) ∧
    ∀ n : Int, x.toRat = (n : ℚ) → o.Int = .ok n := by
  have hr := float64.trunc_range x hlo hhi
  have hI : o.Int = .ok (truncTowardZero x.toRat) := by
    unfold ApplicationCommandInteractionDataOption.Int
    rw [if_neg (not_not.mpr hT), hV]
    simp only
    unfold float64.toInt64
    rw [if_pos ⟨hfin, hr⟩, float64.truncTowardZero_toRat]
  refine ⟨hI, ?_⟩
  intro n hn
  rw [hI, hn]
  unfold truncTowardZero
  split
  · rw [Int.floor_intCast]
  · rw [Int.ceil_intCast]

/-- The option `{"name":"n","type":4,"value":42}` reads as 42, and an Integer
option holding -2.5 reads as -2. -/
theorem Int_truncates_toward_zero_witness :
    Sample.optInteger42.Int = .ok 42 ∧
    Sample.optIntegerNeg2_5.Int = .ok (truncTowardZero (-5 / 2)) ∧
    truncTowardZero (-5 / 2) = -2 := by
  refine ⟨?_, ?_, ?_⟩
  · have h := (Int_truncates_toward_zero Sample.optInteger42 Sample.f42 rfl rfl rfl
      (by rw [Sample.f42_toRat]; norm_num) (by rw [Sample.f42_toRat]; norm_num)).2 42
      (by rw [Sample.f42_toRat]; norm_num)
    exact h
  · have h := (Int_truncates_toward_zero Sample.optIntegerNeg2_5 Sample.fNeg2_5 rfl rfl rfl
      (by rw [Sample.fNeg2_5_toRat]; norm_num) (by rw [Sample.fNeg2_5_toRat]; norm_num)).1
    rw [Sample.fNeg2_5_toRat] at h
    exact h
  · unfold truncTowardZero
    rw [if_neg (by norm_num)]
    rw [Int.ceil_eq_iff]
    constructor <;> norm_num

/-! ## The steps of `Interaction.UnmarshalJSON` -/

theorem Interaction_UnmarshalJSON_envelope_error {B : Type} (sonic : Sonic B) (i : Interaction)
    (data : B) (err : DecodeError)
    (h : sonic.unmarshalInteraction data = .error err) :
    Interaction.UnmarshalJSON sonic i data = (i, some err) := by
  unfold Interaction.UnmarshalJSON
  rw [h]

theorem Interaction_UnmarshalJSON_command_error {B : Type} (sonic : Sonic B) (i : Interaction)
    (data : B) (tmp : unmarshalableInteraction B)
    (err : DecodeError) (h : sonic.unmarshalInteraction data = .ok tmp)
    (hT : tmp.rawInteraction.Type_ = InteractionTypeApplicationCommand ∨
      tmp.rawInteraction.Type_ = InteractionTypeApplicationCommandAutocomplete)
    (hd : sonic.unmarshalApplicationCommandData tmp.Data = .error err) :
    Interaction.UnmarshalJSON sonic i data = (tmp.rawInteraction, some err) := by
  unfold Interaction.UnmarshalJSON
  rw [h]
  simp only
  rw [if_pos hT, hd]

theorem Interaction_UnmarshalJSON_command_ok {B : Type} (sonic : Sonic B) (i : Interaction)
    (data : B) (tmp : unmarshalableInteraction B)
    (v : ApplicationCommandData) (h : sonic.unmarshalInteraction data = .ok tmp)
    (hT : tmp.rawInteraction.Type_ = InteractionTypeApplicationCommand ∨
      tmp.rawInteraction.Type_ = InteractionTypeApplicationCommandAutocomplete)
    (hd : sonic.unmarshalApplicationCommandData tmp.Data = .ok v) :
    Interaction.UnmarshalJSON sonic i data =
      ({ tmp.rawInteraction with Data := some (.ApplicationCommandData v) }, none) := by
  unfold Interaction.UnmarshalJSON
  rw [h]
  simp only
  rw [if_pos hT, hd]

theorem Interaction_UnmarshalJSON_component_error {B : Type} (sonic : Sonic B) (i : Interaction)
    (data : B) (tmp : unmarshalableInteraction B)
    (err : DecodeError) (h : sonic.unmarshalInteraction data = .ok tmp)
    (hT : tmp.rawInteraction.Type_ = InteractionTypeMessageComponent)
    (hd : sonic.unmarshalMessageComponentData tmp.Data = .error err) :
    Interaction.UnmarshalJSON sonic i data = (tmp.rawInteraction, some err) := by
  unfold Interaction.UnmarshalJSON
  rw [h]
  simp only
  rw [if_neg (by rw [hT]; decide), if_pos hT, hd]

theorem Interaction_UnmarshalJSON_component_ok {B : Type} (sonic : Sonic B) (i : Interaction)
    (data : B) (tmp : unmarshalableInteraction B)
    (v : MessageComponentData) (h : sonic.unmarshalInteraction data = .ok tmp)
    (hT : tmp.rawInteraction.Type_ = InteractionTypeMessageComponent)
    (hd : sonic.unmarshalMessageComponentData tmp.Data = .ok v) :
    Interaction.UnmarshalJSON sonic i data =
      ({ tmp.rawInteraction with Data := some (.MessageComponentData v) }, none) := by
  unfold Interaction.UnmarshalJSON
  rw [h]
  simp only
  rw [if_neg (by rw [hT]; decide), if_pos hT, hd]

theorem Interaction_UnmarshalJSON_modal_error {B : Type} (sonic : Sonic B) (i : Interaction)
    (data : B) (tmp : unmarshalableInteraction B)
    (v : ModalSubmitData) (err : DecodeError) (h : sonic.unmarshalInteraction data = .ok tmp)
    (hT : tmp.rawInteraction.Type_ = InteractionTypeModalSubmit)
    (hd : ModalSubmitData.UnmarshalJSON sonic ⟨"", []⟩ tmp.Data = (v, some err)) :
    Interaction.UnmarshalJSON sonic i data = (tmp.rawInteraction, some err) := by
  unfold Interaction.UnmarshalJSON
  rw [h]
  simp only
  rw [if_neg (by rw [hT]; decide), if_neg (by rw [hT]; decide), if_pos hT, hd]

theorem Interaction_UnmarshalJSON_modal_ok {B : Type} (sonic : Sonic B) (i : Interaction)
    (data : B) (tmp : unmarshalableInteraction B)
    (v : ModalSubmitData) (h : sonic.unmarshalInteraction data = .ok tmp)
    (hT : tmp.rawInteraction.Type_ = InteractionTypeModalSubmit)
    (hd : ModalSubmitData.UnmarshalJSON sonic ⟨"", []⟩ tmp.Data = (v, none)) :
    Interaction.UnmarshalJSON sonic i data =
      ({ tmp.rawInteraction with Data := some (.ModalSubmitData v) }, none) := by
  unfold Interaction.UnmarshalJSON
  rw [h]
  simp only
  rw [if_neg (by rw [hT]; decide), if_neg (by rw [hT]; decide), if_pos hT, hd]

theorem Interaction_UnmarshalJSON_no_payload {B : Type} (sonic : Sonic B) (i : Interaction)
    (data : B) (tmp : unmarshalableInteraction B)
    (h : sonic.unmarshalInteraction data = .ok tmp)
    (h2 : tmp.rawInteraction.Type_ ≠ InteractionTypeApplicationCommand)
    (h3 : tmp.rawInteraction.Type_ ≠ InteractionTypeMessageComponent)
    (h4 : tmp.rawInteraction.Type_ ≠ InteractionTypeApplicationCommandAutocomplete)
    (h5 : tmp.rawInteraction.Type_ ≠ InteractionTypeModalSubmit) :
    Interaction.UnmarshalJSON sonic i data = (tmp.rawInteraction, none) := by
  unfold Interaction.UnmarshalJSON
  rw [h]
  simp only
  rw [if_neg (by rintro (h' | h') <;> contradiction), if_neg h3, if_neg h5]

/-! ## Decoding an interaction -/

/-- C5, as the claim states it, fails: the well-formed interaction object
`{"id":"9","application_id":"7","type":99,"token":"tok","version":1}`, whose
`type` is 99, is decoded without an error. -/
theorem unknown_type_is_accepted :
    Interaction.UnmarshalJSON jsonSonic Interaction.zero (some Sample.docUnknownKind)
      = (Sample.envUnknownKind, none) :=
  rfl

/-- C5, amended: for every interaction object whose envelope decodes and
whose `type` is outside the five known kinds 1..5, `Interaction.UnmarshalJSON`
returns no error; the receiver then holds the decoded envelope, with no
payload. -/
theorem unknown_type_succeeds {B : Type} (sonic : Sonic B) (i : Interaction) (data : B)
    (tmp : unmarshalableInteraction B)
    (hdec : sonic.unmarshalInteraction data = .ok tmp)
    (htype : ¬(1 ≤ tmp.rawInteraction.Type_ ∧ tmp.rawInteraction.Type_ ≤ 5)) :
    Interaction.UnmarshalJSON sonic i data = (tmp.rawInteraction, none) ∧
    tmp.rawInteraction.Data = none := by
  refine ⟨?_, sonic.data_shadowed data tmp hdec⟩
  apply Interaction_UnmarshalJSON_no_payload sonic i data tmp hdec
  all_goals
    intro h
    apply htype
    rw [h]
    decide

/-- The document with `"type":99`, decoded over an earlier interaction. -/
theorem unknown_type_succeeds_witness :
    Interaction.UnmarshalJSON jsonSonic Sample.priorInteraction (some Sample.docUnknownKind)
      = (Sample.envUnknownKind, none) ∧
    Sample.envUnknownKind.Data = none :=
  unknown_type_succeeds jsonSonic Sample.priorInteraction (some Sample.docUnknownKind)
    ⟨Sample.envUnknownKind, none⟩ rfl (by decide)

/-- C6, as the claim states it, fails for the autocomplete kind: decoding
`{"id":"9","type":4,"token":"tok","data":{"id":"1","name":"ping","options":[...]}}`
succeeds with the envelope Type 4 and a payload whose `Type()` is 2. -/
theorem autocomplete_payload_reports_command :
    (Interaction.UnmarshalJSON jsonSonic Interaction.zero (some Sample.docAutocomplete)).2
      = none ∧
    (Interaction.UnmarshalJSON jsonSonic Interaction.zero (some Sample.docAutocomplete)).1.Type_
      = 4 ∧
    (Interaction.UnmarshalJSON jsonSonic Interaction.zero
      (some Sample.docAutocomplete)).1.Data.map InteractionData.Type_ = some 2 :=
  ⟨rfl, rfl, rfl⟩

/-- C6, amended: after a successful `Interaction.UnmarshalJSON` that left a
payload, the kind the payload reports through `Type()` equals the envelope's
Type for the kinds ApplicationCommand, MessageComponent and ModalSubmit; for
the kind ApplicationCommandAutocomplete the payload is an
`ApplicationCommandData` and reports ApplicationCommand. -/
theorem payload_kind_of_envelope {B : Type} (sonic : Sonic B) (i : Interaction) (data : B)
    (i' : Interaction) (d : InteractionData)
    (h : Interaction.UnmarshalJSON sonic i data = (i', none)) (hd : i'.Data = some d) :
    (d.Type_ =
      if i'.Type_ = InteractionTypeApplicationCommandAutocomplete
      then InteractionTypeApplicationCommand else i'.Type_) ∧
    (i'.Type_ = InteractionTypeApplicationCommandAutocomplete →
      ∃ v, d = InteractionData.ApplicationCommandData v) := by
  cases hdec : sonic.unmarshalInteraction data with
  | error err =>
    rw [Interaction_UnmarshalJSON_envelope_error sonic i data err hdec] at h
    cases h
  | ok tmp =>
    by_cases hT : tmp.rawInteraction.Type_ = InteractionTypeApplicationCommand ∨
        tmp.rawInteraction.Type_ = InteractionTypeApplicationCommandAutocomplete
    · cases hp : sonic.unmarshalApplicationCommandData tmp.Data with
      | error err =>
        rw [Interaction_UnmarshalJSON_command_error sonic i data tmp err hdec hT hp] at h
        cases h
      | ok v =>
        rw [Interaction_UnmarshalJSON_command_ok sonic i data tmp v hdec hT hp] at h
        cases h
        cases hd
        refine ⟨?_, fun _ => ⟨v, rfl⟩⟩
        rcases hT with hT | hT
        · simp only [hT]; rfl
        · simp only [hT]; rfl
    · by_cases h3 : tmp.rawInteraction.Type_ = InteractionTypeMessageComponent
      · cases hp : sonic.unmarshalMessageComponentData tmp.Data with
        | error err =>
          rw [Interaction_UnmarshalJSON_component_error sonic i data tmp err hdec h3 hp] at h
          cases h
        | ok v =>
          rw [Interaction_UnmarshalJSON_component_ok sonic i data tmp v hdec h3 hp] at h
          cases h
          cases hd
          refine ⟨?_, fun h4 => absurd (Or.inr h4) hT⟩
          simp only [h3]; rfl
      · by_cases h5 : tmp.rawInteraction.Type_ = InteractionTypeModalSubmit
        · rcases hp : ModalSubmitData.UnmarshalJSON sonic ⟨"", []⟩ tmp.Data with ⟨v, _ | err⟩
          · rw [Interaction_UnmarshalJSON_modal_ok sonic i data tmp v hdec h5 hp] at h
            cases h
            cases hd
            refine ⟨?_, fun h4 => absurd (Or.inr h4) hT⟩
            simp only [h5]; rfl
          · rw [Interaction_UnmarshalJSON_modal_error sonic i data tmp v err hdec h5 hp] at h
            cases h
        · rw [Interaction_UnmarshalJSON_no_payload sonic i data tmp hdec
            (fun e => hT (Or.inl e)) h3 (fun e => hT (Or.inr e)) h5] at h
          cases h
          rw [sonic.data_shadowed data tmp hdec] at hd
          cases hd

/-- The command document decodes to the envelope Type 2 with a payload that
reports kind 2, and the autocomplete document to the envelope Type 4 with an
`ApplicationCommandData` that reports kind 2. -/
theorem payload_kind_of_envelope_witness :
    Interaction.UnmarshalJSON jsonSonic Sample.priorInteraction (some Sample.docCommand)
      = ({ Sample.env9 2 with Data := some (.ApplicationCommandData Sample.pingPayload) },
          none) ∧
    (InteractionData.ApplicationCommandData Sample.pingPayload).Type_ = 2 ∧
    Interaction.UnmarshalJSON jsonSonic Sample.priorInteraction (some Sample.docAutocomplete)
      = ({ Sample.env9 4 with Data := some (.ApplicationCommandData Sample.pingPayload) },
          none) ∧
    (∃ v, InteractionData.ApplicationCommandData Sample.pingPayload
      = InteractionData.ApplicationCommandData v) :=
  ⟨rfl,
    (payload_kind_of_envelope jsonSonic Sample.priorInteraction (some Sample.docCommand)
      { Sample.env9 2 with Data := some (.ApplicationCommandData Sample.pingPayload) }
      (.ApplicationCommandData Sample.pingPayload) rfl rfl).1,
    rfl,
    (payload_kind_of_envelope jsonSonic Sample.priorInteraction (some Sample.docAutocomplete)
      { Sample.env9 4 with Data := some (.ApplicationCommandData Sample.pingPayload) }
      (.ApplicationCommandData Sample.pingPayload) rfl rfl).2 rfl⟩

/-- C7: on a successful `Interaction.UnmarshalJSON` the payload variant
follows from the envelope's `type` alone, whatever the `data` member holds:
ApplicationCommand (2) and ApplicationCommandAutocomplete (4) give an
`ApplicationCommandData`, MessageComponent (3) a `MessageComponentData`,
ModalSubmit (5) a `ModalSubmitData`, and Ping (1) no payload. -/
theorem payload_variant_by_type {B : Type} (sonic : Sonic B) (i : Interaction) (data : B)
    (i' : Interaction) (h : Interaction.UnmarshalJSON sonic i data = (i', none)) :
    ((i'.Type_ = InteractionTypeApplicationCommand ∨
        i'.Type_ = InteractionTypeApplicationCommandAutocomplete) →
      ∃ v, i'.Data = some (.ApplicationCommandData v)) ∧
    (i'.Type_ = InteractionTypeMessageComponent →
      ∃ v, i'.Data = some (.MessageComponentData v)) ∧
    (i'.Type_ = InteractionTypeModalSubmit →
      ∃ v, i'.Data = some (.ModalSubmitData v)) ∧
    (i'.Type_ = InteractionTypePing → i'.Data = none) := by
  cases hdec : sonic.unmarshalInteraction data with
  | error err =>
    rw [Interaction_UnmarshalJSON_envelope_error sonic i data err hdec] at h
    cases h
  | ok tmp =>
    by_cases hT : tmp.rawInteraction.Type_ = InteractionTypeApplicationCommand ∨
        tmp.rawInteraction.Type_ = InteractionTypeApplicationCommandAutocomplete
    · cases hp : sonic.unmarshalApplicationCommandData tmp.Data with
      | error err =>
        rw [Interaction_UnmarshalJSON_command_error sonic i data tmp err hdec hT hp] at h
        cases h
      | ok v =>
        rw [Interaction_UnmarshalJSON_command_ok sonic i data tmp v hdec hT hp] at h
        cases h
        refine ⟨fun _ => ⟨v, rfl⟩, ?_, ?_, ?_⟩
        all_goals
          intro h'
          rcases hT with hT | hT
          all_goals
            simp only at h'
            rw [hT] at h'
            exact absurd h' (by decide)
    · by_cases h3 : tmp.rawInteraction.Type_ = InteractionTypeMessageComponent
      · cases hp : sonic.unmarshalMessageComponentData tmp.Data with
        | error err =>
          rw [Interaction_UnmarshalJSON_component_error sonic i data tmp err hdec h3 hp] at h
          cases h
        | ok v =>
          rw [Interaction_UnmarshalJSON_component_ok sonic i data tmp v hdec h3 hp] at h
          cases h
          refine ⟨?_, fun _ => ⟨v, rfl⟩, ?_, ?_⟩
          · intro h'
            exact absurd h' hT
          all_goals
            intro h'
            simp only at h'
            rw [h3] at h'
            exact absurd h' (by decide)
      · by_cases h5 : tmp.rawInteraction.Type_ = InteractionTypeModalSubmit
        · rcases hp : ModalSubmitData.UnmarshalJSON sonic ⟨"", []⟩ tmp.Data with ⟨v, _ | err⟩
          · rw [Interaction_UnmarshalJSON_modal_ok sonic i data tmp v hdec h5 hp] at h
            cases h
            refine ⟨?_, ?_, fun _ => ⟨v, rfl⟩, ?_⟩
            · intro h'
              exact absurd h' hT
            · intro h'
              exact absurd h' h3
            · intro h'
              simp only at h'
              rw [h5] at h'
              exact absurd h' (by decide)
          · rw [Interaction_UnmarshalJSON_modal_error sonic i data tmp v err hdec h5 hp] at h
            cases h
        · rw [Interaction_UnmarshalJSON_no_payload sonic i data tmp hdec
            (fun e => hT (Or.inl e)) h3 (fun e => hT (Or.inr e)) h5] at h
          cases h
          refine ⟨fun h' => absurd h' hT, fun h' => absurd h' h3, fun h' => absurd h' h5,
            fun _ => sonic.data_shadowed data tmp hdec⟩

/-- The same `data` member under the types 2, 4 and 1 gives a command
payload, a command payload and no payload; the types 3 and 5 give a component
payload and a modal payload. -/
theorem payload_variant_by_type_witness :
    (∃ v, (Interaction.UnmarshalJSON jsonSonic Sample.priorInteraction
      (some Sample.docCommand)).1.Data = some (.ApplicationCommandData v)) ∧
    (∃ v, (Interaction.UnmarshalJSON jsonSonic Sample.priorInteraction
      (some Sample.docAutocomplete)).1.Data = some (.ApplicationCommandData v)) ∧
    (∃ v, (Interaction.UnmarshalJSON jsonSonic Sample.priorInteraction
      (some Sample.docComponent)).1.Data = some (.MessageComponentData v)) ∧
    (∃ v, (Interaction.UnmarshalJSON jsonSonic Sample.priorInteraction
      (some Sample.docModal)).1.Data = some (.ModalSubmitData v)) ∧
    (Interaction.UnmarshalJSON jsonSonic Sample.priorInteraction
      (some Sample.docPingWithData)).1.Data = none :=
  ⟨(payload_variant_by_type jsonSonic Sample.priorInteraction (some Sample.docCommand)
      _ rfl).1 (Or.inl rfl),
    (payload_variant_by_type jsonSonic Sample.priorInteraction (some Sample.docAutocomplete)
      _ rfl).1 (Or.inr rfl),
    (payload_variant_by_type jsonSonic Sample.priorInteraction (some Sample.docComponent)
      _ rfl).2.1 rfl,
    (payload_variant_by_type jsonSonic Sample.priorInteraction (some Sample.docModal)
      _ rfl).2.2.1 rfl,
    (payload_variant_by_type jsonSonic Sample.priorInteraction (some Sample.docPingWithData)
      _ rfl).2.2.2 rfl⟩

/-! ## Payload accessors of an interaction -/

/-- C8: the payload accessors of `Interaction` are checked casts.
`ApplicationCommandData()` returns `v` exactly when `Data` holds the
`ApplicationCommandData` `v`, and faults when `Data` holds no
`ApplicationCommandData`, an absent `Data` included; likewise
`MessageComponentData()` and `ModalSubmitData()`. Hence no two of the three
accessors return on the same interaction. -/
theorem payload_accessors_are_checked_casts (i : Interaction) :
    (∀ v, i.ApplicationCommandData = .ok v ↔ i.Data = some (.ApplicationCommandData v)) ∧
    ((∀ v, i.Data ≠ some (.ApplicationCommandData v)) →
      i.ApplicationCommandData = .error Panic.interfaceConversion) ∧
    (∀ v, i.MessageComponentData = .ok v ↔ i.Data = some (.MessageComponentData v)) ∧
    ((∀ v, i.Data ≠ some (.MessageComponentData v)) →
      i.MessageComponentData = .error Panic.interfaceConversion) ∧
    (∀ v, i.ModalSubmitData = .ok v ↔ i.Data = some (.ModalSubmitData v)) ∧
    ((∀ v, i.Data ≠ some (.ModalSubmitData v)) →
      i.ModalSubmitData = .error Panic.interfaceConversion) ∧
    (i.Data = none →
      i.ApplicationCommandData = .error Panic.interfaceConversion ∧
      i.MessageComponentData = .error Panic.interfaceConversion ∧
      i.ModalSubmitData = .error Panic.interfaceConversion) ∧
    (∀ a b, ¬(i.ApplicationCommandData = .ok a ∧ i.MessageComponentData = .ok b)) ∧
    (∀ a c, ¬(i.ApplicationCommandData = .ok a ∧ i.ModalSubmitData = .ok c)) ∧
    (∀ b c, ¬(i.MessageComponentData = .ok b ∧ i.ModalSubmitData = .ok c)) := by
  unfold Interaction.ApplicationCommandData Interaction.MessageComponentData
    Interaction.ModalSubmitData
  rcases hD : i.Data with _ | d
  · simp
  · cases d <;> simp

/-- An interaction holding a component payload: only `MessageComponentData()`
returns. -/
theorem payload_accessors_are_checked_casts_witness :
    Sample.priorInteraction.MessageComponentData = .ok ⟨"go", 2, []⟩ ∧
    Sample.priorInteraction.ApplicationCommandData = .error Panic.interfaceConversion ∧
    Sample.priorInteraction.ModalSubmitData = .error Panic.interfaceConversion :=
  have h := payload_accessors_are_checked_casts Sample.priorInteraction
  ⟨(h.2.2.1 _).mpr rfl, h.2.1 (fun _ e => by cases e),
    h.2.2.2.2.2.1 (fun _ e => by cases e)⟩

/-! ## The receiver after a failed decode -/

/-- C9, as the claim states it, fails. Decoding
`{"id":"new","type":2,"token":"tok","data":"oops"}` over an earlier
interaction returns an error and leaves the receiver with the new envelope
and no payload; decoding `{"custom_id":"new","components":"oops"}` over an
earlier modal payload returns an error and leaves the receiver with the new
`CustomId`. -/
theorem failed_decode_overwrites_receiver :
    Interaction.UnmarshalJSON jsonSonic Sample.priorInteraction
        (some Sample.docCommandBadData)
      = ({ Sample.env9 2 with Id := "new" }, some DecodeError.typeMismatch) ∧
    Sample.priorInteraction.Id = "old" ∧
    ModalSubmitData.UnmarshalJSON jsonSonic Sample.priorModal (some Sample.modalBadComponents)
      = (⟨"new", [.Button ⟨"ok"⟩]⟩, some DecodeError.typeMismatch) ∧
    Sample.priorModal.CustomId = "old" :=
  ⟨rfl, rfl, rfl, rfl⟩

/-- The receiver of `ModalSubmitData.UnmarshalJSON` after an error: as it was
when the first decode failed, with only `CustomId` overwritten when the
decode of the components failed. -/
theorem ModalSubmitData_UnmarshalJSON_error {B : Type} (sonic : Sonic B)
    (d : ModalSubmitData) (data : B) (d' : ModalSubmitData) (err : DecodeError)
    (h : ModalSubmitData.UnmarshalJSON sonic d data = (d', some err)) :
    (sonic.unmarshalModalSubmitFields data = .error err ∧ d' = d) ∨
    (∃ v, sonic.unmarshalModalSubmitFields data = .ok v ∧
      sonic.unmarshalComponents v.2 = .error err ∧ d' = { d with CustomId := v.1 }) := by
  unfold ModalSubmitData.UnmarshalJSON at h
  cases h1 : sonic.unmarshalModalSubmitFields data with
  | error e =>
    rw [h1] at h
    cases h
    exact Or.inl ⟨rfl, rfl⟩
  | ok v =>
    rw [h1] at h
    simp only at h
    cases h2 : sonic.unmarshalComponents v.2 with
    | error e =>
      rw [h2] at h
      cases h
      exact Or.inr ⟨v, rfl, h2, rfl⟩
    | ok tmp =>
      rw [h2] at h
      cases h

/-- C9, amended: when `Interaction.UnmarshalJSON` returns an error, the
receiver is exactly as before the call if the decode of the envelope failed,
and otherwise (the decode of the payload failed) it holds the decoded
envelope with no payload. When `ModalSubmitData.UnmarshalJSON` returns an
error, the receiver is exactly as before the call if the decode of its fields
failed, and otherwise (the decode of the components failed) only its
`CustomId` has been overwritten, by the decoded `custom_id`. -/
theorem failed_decode_receiver {B : Type} (sonic : Sonic B) :
    (∀ (i : Interaction) (data : B) (i' : Interaction) (err : DecodeError),
      Interaction.UnmarshalJSON sonic i data = (i', some err) →
        (sonic.unmarshalInteraction data = .error err ∧ i' = i) ∨
        (∃ tmp, sonic.unmarshalInteraction data = .ok tmp ∧
          i' = tmp.rawInteraction ∧ i'.Data = none)) ∧
    (∀ (d : ModalSubmitData) (data : B) (d' : ModalSubmitData) (err : DecodeError),
      ModalSubmitData.UnmarshalJSON sonic d data = (d', some err) →
        (sonic.unmarshalModalSubmitFields data = .error err ∧ d' = d) ∨
        (∃ v, sonic.unmarshalModalSubmitFields data = .ok v ∧
          sonic.unmarshalComponents v.2 = .error err ∧ d' = { d with CustomId := v.1 })) := by
  refine ⟨?_, fun d data d' err h => ModalSubmitData_UnmarshalJSON_error sonic d data d' err h⟩
  intro i data i' err h
  cases hdec : sonic.unmarshalInteraction data with
  | error e =>
    rw [Interaction_UnmarshalJSON_envelope_error sonic i data e hdec] at h
    cases h
    exact Or.inl ⟨rfl, rfl⟩
  | ok tmp =>
    right
    refine ⟨tmp, rfl, ?_⟩
    have hnil := sonic.data_shadowed data tmp hdec
    by_cases hT : tmp.rawInteraction.Type_ = InteractionTypeApplicationCommand ∨
        tmp.rawInteraction.Type_ = InteractionTypeApplicationCommandAutocomplete
    · cases hp : sonic.unmarshalApplicationCommandData tmp.Data with
      | error e =>
        rw [Interaction_UnmarshalJSON_command_error sonic i data tmp e hdec hT hp] at h
        cases h
        exact ⟨rfl, hnil⟩
      | ok v =>
        rw [Interaction_UnmarshalJSON_command_ok sonic i data tmp v hdec hT hp] at h
        cases h
    · by_cases h3 : tmp.rawInteraction.Type_ = InteractionTypeMessageComponent
      · cases hp : sonic.unmarshalMessageComponentData tmp.Data with
        | error e =>
          rw [Interaction_UnmarshalJSON_component_error sonic i data tmp e hdec h3 hp] at h
          cases h
          exact ⟨rfl, hnil⟩
        | ok v =>
          rw [Interaction_UnmarshalJSON_component_ok sonic i data tmp v hdec h3 hp] at h
          cases h
      · by_cases h5 : tmp.rawInteraction.Type_ = InteractionTypeModalSubmit
        · rcases hp : ModalSubmitData.UnmarshalJSON sonic ⟨"", []⟩ tmp.Data with ⟨v, _ | e⟩
          · rw [Interaction_UnmarshalJSON_modal_ok sonic i data tmp v hdec h5 hp] at h
            cases h
          · rw [Interaction_UnmarshalJSON_modal_error sonic i data tmp v e hdec h5 hp] at h
            cases h
            exact ⟨rfl, hnil⟩
        · rw [Interaction_UnmarshalJSON_no_payload sonic i data tmp hdec
            (fun e => hT (Or.inl e)) h3 (fun e => hT (Or.inr e)) h5] at h
          cases h

/-- A document whose envelope does not decode leaves the earlier interaction
as it was; a document whose payload does not decode leaves the new envelope. -/
theorem failed_decode_receiver_witness :
    ((jsonSonic.unmarshalInteraction (some Sample.docBadEnvelope)
        = .error DecodeError.typeMismatch ∧
      (Interaction.UnmarshalJSON jsonSonic Sample.priorInteraction
        (some Sample.docBadEnvelope)).1 = Sample.priorInteraction) ∨
      (∃ tmp, jsonSonic.unmarshalInteraction (some Sample.docBadEnvelope) = .ok tmp ∧
        (Interaction.UnmarshalJSON jsonSonic Sample.priorInteraction
          (some Sample.docBadEnvelope)).1 = tmp.rawInteraction ∧
        (Interaction.UnmarshalJSON jsonSonic Sample.priorInteraction
          (some Sample.docBadEnvelope)).1.Data = none)) ∧
    ((jsonSonic.unmarshalModalSubmitFields (some Sample.modalBadComponents)
        = .error DecodeError.typeMismatch ∧
      (ModalSubmitData.UnmarshalJSON jsonSonic Sample.priorModal
        (some Sample.modalBadComponents)).1 = Sample.priorModal) ∨
      (∃ v, jsonSonic.unmarshalModalSubmitFields (some Sample.modalBadComponents) = .ok v ∧
        jsonSonic.unmarshalComponents v.2 = .error DecodeError.typeMismatch ∧
        (ModalSubmitData.UnmarshalJSON jsonSonic Sample.priorModal
          (some Sample.modalBadComponents)).1 = { Sample.priorModal with CustomId := v.1 })) :=
  ⟨(failed_decode_receiver jsonSonic).1 Sample.priorInteraction (some Sample.docBadEnvelope)
      _ DecodeError.typeMismatch rfl,
    (failed_decode_receiver jsonSonic).2 Sample.priorModal (some Sample.modalBadComponents)
      _ DecodeError.typeMismatch rfl⟩

/-! ## Lookup of a component by its custom identifier -/

theorem componentInRow_eq_find (customId : string) (cs : List MessageComponent) :
    componentInRow customId cs = cs.find? (isLeafWithId customId) := by
  induction cs with
  | nil => rfl
  | cons c rest ih =>
    cases c with
    | TextInput t =>
      by_cases h : t.CustomId = customId <;>
        simp [componentInRow, isLeafWithId, List.find?_cons, h, ih]
    | Button t =>
      by_cases h : t.CustomId = customId <;>
        simp [componentInRow, isLeafWithId, List.find?_cons, h, ih]
    | SelectMenu t =>
      by_cases h : t.CustomId = customId <;>
        simp [componentInRow, isLeafWithId, List.find?_cons, h, ih]
    | ActionRows _ => simp [componentInRow, isLeafWithId, List.find?_cons, ih]
    | nil => simp [componentInRow, isLeafWithId, List.find?_cons, ih]
    | other _ => simp [componentInRow, isLeafWithId, List.find?_cons, ih]

theorem componentLoop_eq_find (customId : string) (cs : List MessageComponent) :
    componentLoop customId cs = (rowsUnfolded cs).find? (isLeafWithId customId) := by
  induction cs with
  | nil => rfl
  | cons c rest ih =>
    cases c with
    | TextInput t =>
      by_cases h : t.CustomId = customId <;>
        simp [componentLoop, rowsUnfolded, isLeafWithId, List.find?_cons, h, ih]
    | Button t =>
      by_cases h : t.CustomId = customId <;>
        simp [componentLoop, rowsUnfolded, isLeafWithId, List.find?_cons, h, ih]
    | SelectMenu t =>
      by_cases h : t.CustomId = customId <;>
        simp [componentLoop, rowsUnfolded, isLeafWithId, List.find?_cons, h, ih]
    | ActionRows inner =>
      simp only [componentLoop, rowsUnfolded, List.find?_append, componentInRow_eq_find, ih]
      cases List.find? (isLeafWithId customId) inner <;> rfl
    | nil => simp [componentLoop, rowsUnfolded, isLeafWithId, List.find?_cons, ih]
    | other _ => simp [componentLoop, rowsUnfolded, isLeafWithId, List.find?_cons, ih]

theorem componentInRow_rewriteRow (customId : string)
    (f : List MessageComponent → List MessageComponent) (cs : List MessageComponent) :
    componentInRow customId (cs.map (rewriteRow f)) = componentInRow customId cs := by
  induction cs with
  | nil => rfl
  | cons c rest ih =>
    cases c <;> simp [componentInRow, rewriteRow, ih]

theorem componentLoop_rewriteNestedRows (customId : string)
    (f : List MessageComponent → List MessageComponent) (cs : List MessageComponent) :
    componentLoop customId (cs.map (rewriteNestedRows f)) = componentLoop customId cs := by
  induction cs with
  | nil => rfl
  | cons c rest ih =>
    cases c <;> simp [componentLoop, rewriteNestedRows, componentInRow_rewriteRow, ih]

/-- C10: `Component(id)` is the first element, in order, of the sequence got
from the top-level components by replacing each action row by its direct
children, that is a leaf (text input, button or select menu) with `CustomId`
equal to `id`, and nil when that sequence has no such leaf. The search goes
one level below a row only: whatever stands inside a row that is itself
inside a row has no effect on the result. -/
theorem Component_is_first_leaf_one_level (m : ModalSubmitData) (id : string) :
    m.Component id = (rowsUnfolded m.Components).find? (isLeafWithId id) ∧
    (m.Component id = none ↔ ∀ c ∈ rowsUnfolded m.Components, isLeafWithId id c = false) ∧
    ∀ f : List MessageComponent → List MessageComponent,
      ModalSubmitData.Component ⟨m.CustomId, m.Components.map (rewriteNestedRows f)⟩ id
        = m.Component id := by
  refine ⟨componentLoop_eq_find id m.Components, ?_, ?_⟩
  · unfold ModalSubmitData.Component
    rw [componentLoop_eq_find, List.find?_eq_none]
    simp
  · intro f
    exact componentLoop_rewriteNestedRows id f m.Components

/-- The modal with one row holding the text input `email`: the lookup of
`email` returns the input with its value, the lookup of `missing` nothing. -/
theorem Component_sample :
    Sample.modalPayload.Component "email" = some (.TextInput ⟨"email", "a@b.com"⟩) ∧
    Sample.modalPayload.Component "missing" = none :=
  ⟨rfl, rfl⟩

/-! ## Options without a scalar accessor -/

/-- C17: for an option whose Type is SubCommand, SubCommandGroup or
Mentionable, and whatever its Value, each of `Int`, `Float`, `Number`,
`String`, `Bool`, `UserId`, `ChannelId`, `RoleId` and `Attachment` returns its
zero value; the value of a Mentionable option is read by no accessor. -/
theorem accessors_zero_without_scalar_kind (o : ApplicationCommandInteractionDataOption)
    (h : o.Type_ = ApplicationCommandOptionSubCommand ∨
      o.Type_ = ApplicationCommandOptionSubCommandGroup ∨
      o.Type_ = ApplicationCommandOptionMentionable) :
    o.Int = .ok 0 ∧ o.Float = .ok float64.zero ∧ o.Number = .ok float64.zero ∧
    o.String = .ok "" ∧ o.Bool = .ok false ∧ o.UserId = .ok "" ∧
    o.ChannelId = .ok "" ∧ o.RoleId = .ok "" ∧ o.Attachment = .ok none := by
  have hne : ∀ t : int, 3 ≤ t → t ≠ 9 → o.Type_ ≠ t := by
    intro t h3 h9 ht
    rcases h with h | h | h
    · rw [h] at ht; rw [← ht] at h3; exact absurd h3 (by decide)
    · rw [h] at ht; rw [← ht] at h3; exact absurd h3 (by decide)
    · rw [h] at ht; exact h9 ht.symm
  refine ⟨?_, ?_, ?_, ?_, ?_, ?_, ?_, ?_, ?_⟩
  · unfold ApplicationCommandInteractionDataOption.Int
    rw [if_pos (hne _ (by decide) (by decide))]
  · unfold ApplicationCommandInteractionDataOption.Float
    rw [if_pos (hne _ (by decide) (by decide))]
  · unfold ApplicationCommandInteractionDataOption.Number
    rw [if_pos (hne _ (by decide) (by decide))]
  · unfold ApplicationCommandInteractionDataOption.String
    rw [if_pos (hne _ (by decide) (by decide))]
  · unfold ApplicationCommandInteractionDataOption.Bool
    rw [if_pos (hne _ (by decide) (by decide))]
  · unfold ApplicationCommandInteractionDataOption.UserId
    rw [if_pos (hne _ (by decide) (by decide))]
  · unfold ApplicationCommandInteractionDataOption.ChannelId
    rw [if_pos (hne _ (by decide) (by decide))]
  · unfold ApplicationCommandInteractionDataOption.RoleId
    rw [if_pos (hne _ (by decide) (by decide))]
  · unfold ApplicationCommandInteractionDataOption.Attachment
    rw [if_pos (hne _ (by decide) (by decide))]

/-- A Mentionable option holding a string reads as the empty string through
the string accessors, a SubCommand holding 42 reads as 0 through `Int`, and a
SubCommandGroup holding `true` reads as false through `Bool`. -/
theorem accessors_zero_without_scalar_kind_witness :
    Sample.optMentionable.String = .ok "" ∧
    Sample.optMentionable.UserId = .ok "" ∧
    Sample.optMentionable.ChannelId = .ok "" ∧
    Sample.optMentionable.RoleId = .ok "" ∧
    Sample.optSubCommandWithValue.Int = .ok 0 ∧
    Sample.optSubCommandWithValue.Float = .ok float64.zero ∧
    Sample.optGroupWithValue.Bool = .ok false ∧
    Sample.optGroupWithValue.Attachment = .ok none :=
  have hm := accessors_zero_without_scalar_kind Sample.optMentionable (Or.inr (Or.inr rfl))
  have hs := accessors_zero_without_scalar_kind Sample.optSubCommandWithValue (Or.inl rfl)
  have hg := accessors_zero_without_scalar_kind Sample.optGroupWithValue (Or.inr (Or.inl rfl))
  ⟨hm.2.2.2.1, hm.2.2.2.2.2.1, hm.2.2.2.2.2.2.1, hm.2.2.2.2.2.2.2.1, hs.1, hs.2.1,
    hg.2.2.2.2.1, hg.2.2.2.2.2.2.2.2⟩

/-- C18: `Float()` and `Number()` are the same function: on every option,
whatever its Type and Value, both fault or both return the same result. -/
theorem Float_eq_Number (o : ApplicationCommandInteractionDataOption) :
    o.Float = o.Number ∧
    (o.Float = .error Panic.interfaceConversion ↔
      o.Number = .error Panic.interfaceConversion) ∧
    (∀ x, o.Float = .ok x ↔ o.Number = .ok x) := by
  have h : o.Float = o.Number := by
    unfold ApplicationCommandInteractionDataOption.Float
      ApplicationCommandInteractionDataOption.Number
    rfl
  exact ⟨h, by rw [h], fun x => by rw [h]⟩

/-! ## What a successful decode writes -/

/-- C14: on a successful `Interaction.UnmarshalJSON`, every envelope field
other than `Data` (`Id`, `ApplicationId`, `Type`, `GuildId`, `ChannelId`,
`Member`, `User`, `Token`, `Version`, `Message`, `AppPermissions`, `Locale`,
`GuildLocale`) is the value the one field-wise decode of the envelope gave
it; the dispatch on the type writes `Data` only. -/
theorem envelope_fields_from_one_decode {B : Type} (sonic : Sonic B) (i : Interaction)
    (data : B) (i' : Interaction) (h : Interaction.UnmarshalJSON sonic i data = (i', none)) :
    ∃ tmp, sonic.unmarshalInteraction data = .ok tmp ∧
      i'.Id = tmp.rawInteraction.Id ∧
      i'.ApplicationId = tmp.rawInteraction.ApplicationId ∧
      i'.Type_ = tmp.rawInteraction.Type_ ∧
      i'.GuildId = tmp.rawInteraction.GuildId ∧
      i'.ChannelId = tmp.rawInteraction.ChannelId ∧
      i'.Member = tmp.rawInteraction.Member ∧
      i'.User = tmp.rawInteraction.User ∧
      i'.Token = tmp.rawInteraction.Token ∧
      i'.Version = tmp.rawInteraction.Version ∧
      i'.Message = tmp.rawInteraction.Message ∧
      i'.AppPermissions = tmp.rawInteraction.AppPermissions ∧
      i'.Locale = tmp.rawInteraction.Locale ∧
      i'.GuildLocale = tmp.rawInteraction.GuildLocale ∧
      i' = { tmp.rawInteraction with Data := i'.Data } := by
  cases hdec : sonic.unmarshalInteraction data with
  | error err =>
    rw [Interaction_UnmarshalJSON_envelope_error sonic i data err hdec] at h
    cases h
  | ok tmp =>
    refine ⟨tmp, rfl, ?_⟩
    by_cases hT : tmp.rawInteraction.Type_ = InteractionTypeApplicationCommand ∨
        tmp.rawInteraction.Type_ = InteractionTypeApplicationCommandAutocomplete
    · cases hp : sonic.unmarshalApplicationCommandData tmp.Data with
      | error err =>
        rw [Interaction_UnmarshalJSON_command_error sonic i data tmp err hdec hT hp] at h
        cases h
      | ok v =>
        rw [Interaction_UnmarshalJSON_command_ok sonic i data tmp v hdec hT hp] at h
        cases h
        exact ⟨rfl, rfl, rfl, rfl, rfl, rfl, rfl, rfl, rfl, rfl, rfl, rfl, rfl, rfl⟩
    · by_cases h3 : tmp.rawInteraction.Type_ = InteractionTypeMessageComponent
      · cases hp : sonic.unmarshalMessageComponentData tmp.Data with
        | error err =>
          rw [Interaction_UnmarshalJSON_component_error sonic i data tmp err hdec h3 hp] at h
          cases h
        | ok v =>
          rw [Interaction_UnmarshalJSON_component_ok sonic i data tmp v hdec h3 hp] at h
          cases h
          exact ⟨rfl, rfl, rfl, rfl, rfl, rfl, rfl, rfl, rfl, rfl, rfl, rfl, rfl, rfl⟩
      · by_cases h5 : tmp.rawInteraction.Type_ = InteractionTypeModalSubmit
        · rcases hp : ModalSubmitData.UnmarshalJSON sonic ⟨"", []⟩ tmp.Data with ⟨v, _ | err⟩
          · rw [Interaction_UnmarshalJSON_modal_ok sonic i data tmp v hdec h5 hp] at h
            cases h
            exact ⟨rfl, rfl, rfl, rfl, rfl, rfl, rfl, rfl, rfl, rfl, rfl, rfl, rfl, rfl⟩
          · rw [Interaction_UnmarshalJSON_modal_error sonic i data tmp v err hdec h5 hp] at h
            cases h
        · rw [Interaction_UnmarshalJSON_no_payload sonic i data tmp hdec
            (fun e => hT (Or.inl e)) h3 (fun e => hT (Or.inr e)) h5] at h
          cases h
          exact ⟨rfl, rfl, rfl, rfl, rfl, rfl, rfl, rfl, rfl, rfl, rfl, rfl, rfl, rfl⟩

/-- The command document, decoded over an earlier interaction: the envelope
fields are those of the decoded envelope, none is left from the receiver. -/
theorem envelope_fields_from_one_decode_witness :
    ∃ tmp, jsonSonic.unmarshalInteraction (some Sample.docCommand) = .ok tmp ∧
      (Sample.env9 2).Id = tmp.rawInteraction.Id ∧
      (Sample.env9 2).ApplicationId = tmp.rawInteraction.ApplicationId ∧
      (Sample.env9 2).Type_ = tmp.rawInteraction.Type_ ∧
      (Sample.env9 2).GuildId = tmp.rawInteraction.GuildId ∧
      (Sample.env9 2).ChannelId = tmp.rawInteraction.ChannelId ∧
      (Sample.env9 2).Member = tmp.rawInteraction.Member ∧
      (Sample.env9 2).User = tmp.rawInteraction.User ∧
      (Sample.env9 2).Token = tmp.rawInteraction.Token ∧
      (Sample.env9 2).Version = tmp.rawInteraction.Version ∧
      (Sample.env9 2).Message = tmp.rawInteraction.Message ∧
      (Sample.env9 2).AppPermissions = tmp.rawInteraction.AppPermissions ∧
      (Sample.env9 2).Locale = tmp.rawInteraction.Locale ∧
      (Sample.env9 2).GuildLocale = tmp.rawInteraction.GuildLocale ∧
      ({ Sample.env9 2 with Data := some (.ApplicationCommandData Sample.pingPayload) } :
          Interaction)
        = { tmp.rawInteraction with Data := some (.ApplicationCommandData Sample.pingPayload) } :=
  envelope_fields_from_one_decode jsonSonic Sample.priorInteraction (some Sample.docCommand)
    { Sample.env9 2 with Data := some (.ApplicationCommandData Sample.pingPayload) } rfl

/-- The loop of `ModalSubmitData.UnmarshalJSON` started at index `pre.length`
on a slice whose first `pre.length` entries are `pre` writes the wrapped
components after them, in order. -/
theorem fillComponents_append (tmp : List unmarshalableMessageComponent) :
    ∀ pre post : List MessageComponent, post.length = tmp.length →
      fillComponents tmp pre.length (pre ++ post) = pre ++ tmp.map (fun v => v.MessageComponent) := by
  induction tmp with
  | nil =>
    intro pre post h
    cases post with
    | nil => rfl
    | cons p ps => cases h
  | cons v rest ih =>
    intro pre post h
    cases post with
    | nil => cases h
    | cons p ps =>
      have hlen : ps.length = rest.length := by simpa using h
      have hset : (pre ++ p :: ps).set pre.length v.MessageComponent
          = (pre ++ [v.MessageComponent]) ++ ps := by
        simp
      have hl : (pre ++ [v.MessageComponent]).length = pre.length + 1 := by simp
      rw [fillComponents, hset, ← hl, ih _ _ hlen]
      simp

/-- The loop fills the fresh slice with the wrapped components, in order. -/
theorem fillComponents_fresh (tmp : List unmarshalableMessageComponent) :
    fillComponents tmp 0 (List.replicate tmp.length MessageComponent.nil)
      = tmp.map (fun v => v.MessageComponent) := by
  have h := fillComponents_append tmp [] (List.replicate tmp.length MessageComponent.nil)
    (by simp)
  simpa using h

/-- C15: on a successful `ModalSubmitData.UnmarshalJSON`, `CustomId` is the
decoded `custom_id`, and `Components` has the length of the decoded
`components` array, its entry at each index being the component decoded from
the element at that index: nothing is dropped, duplicated or reordered. -/
theorem modal_components_in_order {B : Type} (sonic : Sonic B) (d : ModalSubmitData)
    (data : B) (d' : ModalSubmitData)
    (h : ModalSubmitData.UnmarshalJSON sonic d data = (d', none)) :
    ∃ v tmp, sonic.unmarshalModalSubmitFields data = .ok v ∧
      sonic.unmarshalComponents v.2 = .ok tmp ∧
      d'.CustomId = v.1 ∧
      d'.Components.length = tmp.length ∧
      (∀ k : Nat, d'.Components[k]? = (tmp[k]?).map unmarshalableMessageComponent.MessageComponent) ∧
      d'.Components = tmp.map unmarshalableMessageComponent.MessageComponent := by
  unfold ModalSubmitData.UnmarshalJSON at h
  cases h1 : sonic.unmarshalModalSubmitFields data with
  | error e =>
    rw [h1] at h
    cases h
  | ok v =>
    rw [h1] at h
    simp only at h
    cases h2 : sonic.unmarshalComponents v.2 with
    | error e =>
      rw [h2] at h
      cases h
    | ok tmp =>
      rw [h2] at h
      simp only [fillComponents_fresh] at h
      cases h
      refine ⟨v, tmp, rfl, h2, rfl, ?_, ?_, rfl⟩
      · simp
      · intro k
        simp

/-- The modal payload with one row, decoded over an earlier payload: the new
identifier and the one decoded component. -/
theorem modal_components_in_order_witness :
    ∃ v tmp, jsonSonic.unmarshalModalSubmitFields (some Sample.modalData) = .ok v ∧
      jsonSonic.unmarshalComponents v.2 = .ok tmp ∧
      Sample.modalPayload.CustomId = v.1 ∧
      Sample.modalPayload.Components.length = tmp.length ∧
      (∀ k : Nat, Sample.modalPayload.Components[k]?
        = (tmp[k]?).map unmarshalableMessageComponent.MessageComponent) ∧
      Sample.modalPayload.Components = tmp.map unmarshalableMessageComponent.MessageComponent :=
  modal_components_in_order jsonSonic Sample.priorModal (some Sample.modalData)
    Sample.modalPayload rfl

/-! ## Lookup in a tree with unique identifiers -/

/-- Outside the component trees of the data model: in a hand-built value with
one text input `deep` inside a row inside a row, `Component("deep")` returns
nil, the search going one level below a row only. -/
theorem nested_leaf_is_not_found :
    leavesOfList Sample.modalNestedRows.Components = [.TextInput ⟨"deep", "v"⟩] ∧
    (leavesOfList Sample.modalNestedRows.Components).map customIdOf = ["deep"] ∧
    Sample.modalNestedRows.Component "deep" = none :=
  ⟨rfl, rfl, rfl⟩

theorem isLeafWithId_iff (id : string) (c : MessageComponent) :
    isLeafWithId id c = true ↔ isLeaf c = true ∧ customIdOf c = id := by
  cases c <;> simp [isLeafWithId, isLeaf, customIdOf]

/-- Below a row that holds no row, the leaves are the children that are
leaves. -/
theorem leavesOfList_of_no_rows (cs : List MessageComponent)
    (h : cs.all (fun c => !isRow c) = true) : leavesOfList cs = cs.filter isLeaf := by
  induction cs with
  | nil => rfl
  | cons c rest ih =>
    simp only [List.all_cons, Bool.and_eq_true] at h
    cases c <;> simp_all [leavesOfList, leavesOf, isLeaf, isRow]

/-- When no row holds a row, the leaves of the tree are the leaves of the
sequence that `Component` walks. -/
theorem leavesOfList_eq_filter (cs : List MessageComponent) (h : rowsHoldNoRows cs = true) :
    leavesOfList cs = (rowsUnfolded cs).filter isLeaf := by
  induction cs with
  | nil => rfl
  | cons c rest ih =>
    cases c with
    | ActionRows inner =>
      simp only [rowsHoldNoRows, Bool.and_eq_true] at h
      simp only [leavesOfList, leavesOf, rowsUnfolded, List.filter_append,
        leavesOfList_of_no_rows inner h.1, ih h.2]
    | TextInput t =>
      simp only [rowsHoldNoRows] at h
      simp [leavesOfList, leavesOf, rowsUnfolded, isLeaf, ih h]
    | Button t =>
      simp only [rowsHoldNoRows] at h
      simp [leavesOfList, leavesOf, rowsUnfolded, isLeaf, ih h]
    | SelectMenu t =>
      simp only [rowsHoldNoRows] at h
      simp [leavesOfList, leavesOf, rowsUnfolded, isLeaf, ih h]
    | nil =>
      simp only [rowsHoldNoRows] at h
      simp [leavesOfList, leavesOf, rowsUnfolded, isLeaf, ih h]
    | other n =>
      simp only [rowsHoldNoRows] at h
      simp [leavesOfList, leavesOf, rowsUnfolded, isLeaf, ih h]

namespace Reference

theorem decodeComponent_obj (inRow : Bool) (kvs : List (String × Json)) :
    decodeComponent inRow (.obj kvs) =
      match decodeComponentType kvs 0 with
      | .error err => .error err
      | .ok t =>
        if t = 1 then
          if inRow then .error .nestedActionRow
          else
            match decodeActionRowFields kvs [] with
            | .ok cs => .ok (.ActionRows cs)
            | .error err => .error err
        else if t = 2 then
          match decodeCustomId kvs "" with
          | .ok s => .ok (.Button ⟨s⟩)
          | .error err => .error err
        else if t = 3 then
          match decodeCustomId kvs "" with
          | .ok s => .ok (.SelectMenu ⟨s⟩)
          | .error err => .error err
        else if t = 4 then
          match decodeTextInputFields kvs ⟨"", ""⟩ with
          | .ok c => .ok (.TextInput c)
          | .error err => .error err
        else .error .unknownComponentType :=
  rfl

theorem decodeActionRowFields_nil (cs : List MessageComponent) :
    decodeActionRowFields [] cs = .ok cs :=
  rfl

theorem decodeActionRowFields_cons (k : String) (v : Json) (rest : List (String × Json))
    (cs : List MessageComponent) :
    decodeActionRowFields ((k, v) :: rest) cs =
      if k = "components" then
        match v with
        | .null => decodeActionRowFields rest []
        | .arr xs =>
          match decodeComponents true xs with
          | .ok cs' => decodeActionRowFields rest cs'
          | .error err => .error err
        | _ => .error .typeMismatch
      else decodeActionRowFields rest cs := by
  cases v <;> rfl

theorem decodeComponents_nil (inRow : Bool) : decodeComponents inRow [] = .ok [] :=
  rfl

theorem decodeComponents_cons (inRow : Bool) (x : Json) (xs : List Json) :
    decodeComponents inRow (x :: xs) =
      match decodeComponent inRow x with
      | .ok c =>
        match decodeComponents inRow xs with
        | .ok cs => .ok (c :: cs)
        | .error err => .error err
      | .error err => .error err := by
  cases x <;> rfl

/-- Inside a row the component decoder gives no row. -/
theorem decodeComponent_inRow (j : Json) (c : MessageComponent)
    (h : decodeComponent true j = .ok c) : isRow c = false := by
  cases j with
  | obj kvs =>
    rw [decodeComponent_obj] at h
    cases ht : decodeComponentType kvs 0 with
    | error e =>
      rw [ht] at h
      cases h
    | ok t =>
      rw [ht] at h
      simp only at h
      by_cases h1 : t = 1
      · rw [if_pos h1] at h
        cases h
      rw [if_neg h1] at h
      by_cases h2 : t = 2
      · rw [if_pos h2] at h
        split at h
        · cases h; rfl
        · cases h
      rw [if_neg h2] at h
      by_cases h3 : t = 3
      · rw [if_pos h3] at h
        split at h
        · cases h; rfl
        · cases h
      rw [if_neg h3] at h
      by_cases h4 : t = 4
      · rw [if_pos h4] at h
        split at h
        · cases h; rfl
        · cases h
      rw [if_neg h4] at h
      cases h
  | null => cases h
  | bool b => cases h
  | num n => cases h
  | str s => cases h
  | arr xs => cases h

/-- The children decoded for a row hold no row. -/
theorem decodeComponents_inRow (xs : List Json) :
    ∀ cs : List MessageComponent, decodeComponents true xs = .ok cs →
      cs.all (fun c => !isRow c) = true := by
  induction xs with
  | nil =>
    intro cs h
    rw [decodeComponents_nil] at h
    cases h
    rfl
  | cons x rest ih =>
    intro cs h
    rw [decodeComponents_cons] at h
    cases hx : decodeComponent true x with
    | error e =>
      rw [hx] at h
      cases h
    | ok c =>
      rw [hx] at h
      simp only at h
      cases hr : decodeComponents true rest with
      | error e =>
        rw [hr] at h
        cases h
      | ok cs' =>
        rw [hr] at h
        cases h
        simp [decodeComponent_inRow x c hx, ih cs' hr]

theorem decodeActionRowFields_no_rows (kvs : List (String × Json)) :
    ∀ acc cs : List MessageComponent, decodeActionRowFields kvs acc = .ok cs →
      acc.all (fun c => !isRow c) = true → cs.all (fun c => !isRow c) = true := by
  induction kvs with
  | nil =>
    intro acc cs h hacc
    rw [decodeActionRowFields_nil] at h
    cases h
    exact hacc
  | cons kv rest ih =>
    intro acc cs h hacc
    obtain ⟨k, v⟩ := kv
    rw [decodeActionRowFields_cons] at h
    by_cases hk : k = "components"
    · rw [if_pos hk] at h
      cases v with
      | null => exact ih _ _ h rfl
      | arr xs =>
        simp only at h
        cases hd : decodeComponents true xs with
        | ok cs' =>
          rw [hd] at h
          exact ih _ _ h (decodeComponents_inRow xs cs' hd)
        | error e =>
          rw [hd] at h
          cases h
      | bool b => cases h
      | num n => cases h
      | str s => cases h
      | obj m => cases h
    · rw [if_neg hk] at h
      exact ih _ _ h hacc

/-- The component decoder gives component trees: no decoded row holds a row. -/
theorem decodeComponents_rowsHoldNoRows (xs : List Json) :
    ∀ cs : List MessageComponent, decodeComponents false xs = .ok cs →
      rowsHoldNoRows cs = true := by
  induction xs with
  | nil =>
    intro cs h
    rw [decodeComponents_nil] at h
    cases h
    rfl
  | cons x rest ih =>
    intro cs h
    rw [decodeComponents_cons] at h
    cases hx : decodeComponent false x with
    | error e =>
      rw [hx] at h
      cases h
    | ok c =>
      rw [hx] at h
      simp only at h
      cases hr : decodeComponents false rest with
      | error e =>
        rw [hr] at h
        cases h
      | ok cs' =>
        rw [hr] at h
        cases h
        have hrest := ih cs' hr
        cases c with
        | ActionRows inner =>
          have hin : inner.all (fun c => !isRow c) = true := by
            cases x with
            | obj kvs =>
              rw [decodeComponent_obj] at hx
              cases ht : decodeComponentType kvs 0 with
              | error e =>
                rw [ht] at hx
                cases hx
              | ok t =>
                rw [ht] at hx
                simp only at hx
                by_cases h1 : t = 1
                · rw [if_pos h1] at hx
                  simp only [Bool.false_eq_true, if_false] at hx
                  cases hf : decodeActionRowFields kvs [] with
                  | error e =>
                    rw [hf] at hx
                    cases hx
                  | ok cs0 =>
                    rw [hf] at hx
                    cases hx
                    exact decodeActionRowFields_no_rows kvs [] _ hf rfl
                rw [if_neg h1] at hx
                by_cases h2 : t = 2
                · rw [if_pos h2] at hx
                  split at hx <;> cases hx
                rw [if_neg h2] at hx
                by_cases h3 : t = 3
                · rw [if_pos h3] at hx
                  split at hx <;> cases hx
                rw [if_neg h3] at hx
                by_cases h4 : t = 4
                · rw [if_pos h4] at hx
                  split at hx <;> cases hx
                rw [if_neg h4] at hx
                cases hx
            | null => cases hx
            | bool b => cases hx
            | num n => cases hx
            | str s => cases hx
            | arr ys => cases hx
          simp [rowsHoldNoRows, hin, hrest]
        | TextInput t => simpa [rowsHoldNoRows] using hrest
        | Button t => simpa [rowsHoldNoRows] using hrest
        | SelectMenu t => simpa [rowsHoldNoRows] using hrest
        | nil => simpa [rowsHoldNoRows] using hrest
        | other n => simpa [rowsHoldNoRows] using hrest

end Reference

/-- Every `ModalSubmitData` that `UnmarshalJSON` decodes holds a component
tree: no action row of it holds an action row. -/
theorem decoded_modal_is_component_tree (d : ModalSubmitData) (data : RawJson)
    (d' : ModalSubmitData)
    (h : ModalSubmitData.UnmarshalJSON jsonSonic d data = (d', none)) :
    rowsHoldNoRows d'.Components = true := by
  unfold ModalSubmitData.UnmarshalJSON at h
  cases h1 : jsonSonic.unmarshalModalSubmitFields data with
  | error e =>
    rw [h1] at h
    cases h
  | ok v =>
    rw [h1] at h
    simp only at h
    cases h2 : jsonSonic.unmarshalComponents v.2 with
    | error e =>
      rw [h2] at h
      cases h
    | ok tmp =>
      rw [h2] at h
      simp only [fillComponents_fresh] at h
      cases h
      simp only
      have h3 : Reference.unmarshalComponents v.2 = .ok tmp := h2
      unfold Reference.unmarshalComponents at h3
      split at h3
      · cases h3
      · cases h3
        rfl
      · rename_i xs _
        cases hc : Reference.decodeComponents false xs with
        | error e =>
          rw [hc] at h3
          cases h3
        | ok cs =>
          rw [hc] at h3
          cases h3
          have hmap : List.map (fun v => v.MessageComponent)
              (List.map unmarshalableMessageComponent.mk cs) = cs := by
            rw [List.map_map]
            exact List.map_id cs
          rw [hmap]
          exact Reference.decodeComponents_rowsHoldNoRows xs cs hc
      · cases h3

/-- C11: for every component tree held by a `ModalSubmitData` (a tree of the
data model: no action row holds an action row) in which custom identifiers
are unique, and every query `id`: if a leaf of the tree has `CustomId` equal
to `id`, `Component(id)` returns that leaf, and if no leaf of the tree has it,
`Component(id)` returns nil. What `Component(id)` returns is always a leaf,
never an action row, and its `CustomId` equals `id`. -/
theorem Component_finds_unique_leaf (m : ModalSubmitData) (id : string) :
    (rowsHoldNoRows m.Components = true → uniqueCustomIds m.Components →
      (∀ c ∈ leavesOfList m.Components, customIdOf c = id → m.Component id = some c) ∧
      ((∀ c ∈ leavesOfList m.Components, customIdOf c ≠ id) → m.Component id = none)) ∧
    (∀ r, m.Component id = some r →
      isLeaf r = true ∧ isRow r = false ∧ customIdOf r = id) := by
  have hfind : m.Component id = (rowsUnfolded m.Components).find? (isLeafWithId id) :=
    componentLoop_eq_find id m.Components
  have hres : ∀ r, m.Component id = some r →
      isLeaf r = true ∧ customIdOf r = id ∧ r ∈ rowsUnfolded m.Components := by
    intro r hr
    rw [hfind] at hr
    have h1 := List.find?_some hr
    have h2 := List.mem_of_find?_eq_some hr
    rw [isLeafWithId_iff] at h1
    exact ⟨h1.1, h1.2, h2⟩
  refine ⟨?_, ?_⟩
  · intro hflat huniq
    have hleaves := leavesOfList_eq_filter m.Components hflat
    refine ⟨?_, ?_⟩
    · intro c hc hid
      have hc' : c ∈ rowsUnfolded m.Components ∧ isLeaf c = true := by
        rw [hleaves] at hc
        simpa [List.mem_filter] using hc
      cases hr : m.Component id with
      | none =>
        rw [hfind, List.find?_eq_none] at hr
        have hno := hr c hc'.1
        rw [isLeafWithId_iff] at hno
        exact absurd ⟨hc'.2, hid⟩ hno
      | some r =>
        obtain ⟨hl, hi, hm⟩ := hres r hr
        have hrl : r ∈ leavesOfList m.Components := by
          rw [hleaves]
          simp [List.mem_filter, hm, hl]
        have heq : r = c :=
          List.inj_on_of_nodup_map huniq hrl hc (by rw [hi, hid])
        rw [heq]
    · intro hnone
      cases hr : m.Component id with
      | none => rfl
      | some r =>
        obtain ⟨hl, hi, hm⟩ := hres r hr
        have hrl : r ∈ leavesOfList m.Components := by
          rw [hleaves]
          simp [List.mem_filter, hm, hl]
        exact absurd hi (hnone r hrl)
  · intro r hr
    obtain ⟨hl, hi, _⟩ := hres r hr
    refine ⟨hl, ?_, hi⟩
    cases r <;> simp_all [isLeaf, isRow]

/-- The modal decoded from
`{"custom_id":"form","components":[{"type":1,"components":[{"type":4,"custom_id":"email","value":"a@b.com"}]}]}`
and the flat modal with the leaves `ok`, `email` and `name`: each lookup
returns its leaf, and the lookup of `missing` returns nil. -/
theorem Component_finds_unique_leaf_witness :
    ModalSubmitData.UnmarshalJSON jsonSonic Sample.priorModal (some Sample.modalData)
      = (Sample.modalPayload, none) ∧
    Sample.modalPayload.Component "email" = some (.TextInput ⟨"email", "a@b.com"⟩) ∧
    Sample.modalFlat.Component "name" = some (.TextInput ⟨"name", "Ann"⟩) ∧
    Sample.modalFlat.Component "ok" = some (.Button ⟨"ok"⟩) ∧
    Sample.modalFlat.Component "missing" = none := by
  have hu : uniqueCustomIds Sample.modalFlat.Components := by
    unfold uniqueCustomIds
    decide
  have hp : uniqueCustomIds Sample.modalPayload.Components := by
    unfold uniqueCustomIds
    decide
  have h0 := (Component_finds_unique_leaf Sample.modalPayload "email").1 rfl hp
  have h1 := (Component_finds_unique_leaf Sample.modalFlat "name").1 rfl hu
  have h2 := (Component_finds_unique_leaf Sample.modalFlat "ok").1 rfl hu
  have h3 := (Component_finds_unique_leaf Sample.modalFlat "missing").1 rfl hu
  refine ⟨rfl, h0.1 _ ?_ rfl, h1.1 _ ?_ rfl, h2.1 _ ?_ rfl, h3.2 ?_⟩
  · simp [Sample.modalPayload, leavesOfList, leavesOf]
  · simp [Sample.modalFlat, leavesOfList, leavesOf]
  · simp [Sample.modalFlat, leavesOfList, leavesOf]
  · intro c hc
    simp [Sample.modalFlat, leavesOfList, leavesOf] at hc
    rcases hc with rfl | rfl | rfl <;> simp [customIdOf]

/-! ## What the decode of an option keeps -/

namespace Reference

theorem valueOfJson_eq_nil (j : Json) : valueOfJson j = Value.nil ↔ j = Json.null := by
  cases j <;> simp [valueOfJson]

theorem valueOfJson_ne_attachment (j : Json) (p : Option Attachment) :
    valueOfJson j ≠ Value.attachment p := by
  cases j <;> simp [valueOfJson]

theorem decodeOption_obj (kvs : List (String × Json)) :
    decodeOption (.obj kvs) = decodeOptionFields kvs (.mk "" 0 .nil [] false) :=
  rfl

theorem decodeOptionFields_nil (o : ApplicationCommandInteractionDataOption) :
    decodeOptionFields [] o = .ok o :=
  rfl

/-- One step of the decode of the members of an option object. -/
theorem decodeOptionFields_cons (k : String) (v : Json) (rest : List (String × Json))
    (name : string) (ty : int) (value : Value)
    (options : List ApplicationCommandInteractionDataOption) (focused : bool) :
    decodeOptionFields ((k, v) :: rest) (.mk name ty value options focused) =
      if k = "name" then
        match decodeString name v with
        | .ok s => decodeOptionFields rest (.mk s ty value options focused)
        | .error err => .error err
      else if k = "type" then
        match decodeInt ty v with
        | .ok t => decodeOptionFields rest (.mk name t value options focused)
        | .error err => .error err
      else if k = "value" then
        decodeOptionFields rest (.mk name ty (valueOfJson v) options focused)
      else if k = "options" then
        match v with
        | .null => decodeOptionFields rest (.mk name ty value [] focused)
        | .arr xs =>
          match decodeOptions xs with
          | .ok os => decodeOptionFields rest (.mk name ty value os focused)
          | .error err => .error err
        | _ => .error .typeMismatch
      else if k = "focused" then
        match decodeBool focused v with
        | .ok b => decodeOptionFields rest (.mk name ty value options b)
        | .error err => .error err
      else decodeOptionFields rest (.mk name ty value options focused) := by
  cases v <;> rfl

theorem decodeOptions_nil : decodeOptions [] = .ok [] :=
  rfl

theorem decodeOptions_cons (x : Json) (xs : List Json) :
    decodeOptions (x :: xs) =
      match decodeOption x with
      | .ok o =>
        match decodeOptions xs with
        | .ok os => .ok (o :: os)
        | .error err => .error err
      | .error err => .error err :=
  rfl

/-- The `Value` of a decoded option is the generic image of the last `value`
member of the wire object, and the one it had when there is none. -/
theorem decodeOptionFields_Value (kvs : List (String × Json)) :
    ∀ acc o : ApplicationCommandInteractionDataOption, decodeOptionFields kvs acc = .ok o →
      o.Value = match lastMember "value" kvs with
        | some v => valueOfJson v
        | none => acc.Value := by
  induction kvs with
  | nil =>
    intro acc o h
    rw [decodeOptionFields_nil] at h
    cases h
    rfl
  | cons kv rest ih =>
    intro acc o h
    obtain ⟨k, v⟩ := kv
    obtain ⟨name, ty, value, options, focused⟩ := acc
    rw [decodeOptionFields_cons] at h
    simp only [lastMember]
    by_cases h1 : k = "name"
    · rw [if_pos h1] at h
      have hk : ¬k = "value" := by rw [h1]; decide
      split at h
      · have := ih _ _ h
        rw [this]
        cases lastMember "value" rest <;> simp [hk, ApplicationCommandInteractionDataOption.Value]
      · cases h
    rw [if_neg h1] at h
    by_cases h2 : k = "type"
    · rw [if_pos h2] at h
      have hk : ¬k = "value" := by rw [h2]; decide
      split at h
      · have := ih _ _ h
        rw [this]
        cases lastMember "value" rest <;> simp [hk, ApplicationCommandInteractionDataOption.Value]
      · cases h
    rw [if_neg h2] at h
    by_cases h3 : k = "value"
    · rw [if_pos h3] at h
      have := ih _ _ h
      rw [this]
      cases lastMember "value" rest <;> simp [h3, ApplicationCommandInteractionDataOption.Value]
    rw [if_neg h3] at h
    by_cases h4 : k = "options"
    · rw [if_pos h4] at h
      cases v with
      | null =>
        have := ih _ _ h
        rw [this]
        cases lastMember "value" rest <;> simp [h3, ApplicationCommandInteractionDataOption.Value]
      | arr xs =>
        simp only at h
        cases hd : decodeOptions xs with
        | ok os =>
          rw [hd] at h
          have := ih _ _ h
          rw [this]
          cases lastMember "value" rest <;>
            simp [h3, ApplicationCommandInteractionDataOption.Value]
        | error e =>
          rw [hd] at h
          cases h
      | bool b => cases h
      | num n => cases h
      | str s => cases h
      | obj m => cases h
    rw [if_neg h4] at h
    by_cases h5 : k = "focused"
    · rw [if_pos h5] at h
      split at h
      · have := ih _ _ h
        rw [this]
        cases lastMember "value" rest <;> simp [h3, ApplicationCommandInteractionDataOption.Value]
      · cases h
    rw [if_neg h5] at h
    have := ih _ _ h
    rw [this]
    cases lastMember "value" rest <;> simp [h3, ApplicationCommandInteractionDataOption.Value]

end Reference

/-! ## The decode of option objects as the platform writes them -/

namespace Reference

theorem valueOfJson_toJson (s : WireScalar) : valueOfJson s.toJson = s.decoded := by
  cases s <;> rfl

/-- The members `name` and `type` set the fields `Name` and `Type`. -/
theorem decodeOptionFields_head (name : String) (t : JNumber) (k : Int)
    (rest : List (String × Json)) (hk : t.asInt = some k)
    (hfit : -(2 : Int) ^ 63 ≤ k ∧ k < (2 : Int) ^ 63) :
    decodeOptionFields (("name", .str name) :: ("type", .num t) :: rest) (.mk "" 0 .nil [] false)
      = decodeOptionFields rest (.mk name k .nil [] false) := by
  rw [decodeOptionFields_cons, if_pos rfl]
  simp only [decodeString]
  rw [decodeOptionFields_cons, if_neg (by decide), if_pos rfl]
  simp only [decodeInt, hk, if_pos hfit]

/-- A written `value` member sets the field `Value`. -/
theorem decodeOptionFields_valueMember (v : Option WireScalar) (rest : List (String × Json))
    (name : string) (ty : int) (options : List ApplicationCommandInteractionDataOption)
    (focused : bool) :
    decodeOptionFields (WireOption.valueMember v ++ rest) (.mk name ty .nil options focused)
      = decodeOptionFields rest (.mk name ty (WireOption.decodedValue v) options focused) := by
  cases v with
  | none => rfl
  | some s =>
    simp only [WireOption.valueMember, List.cons_append, List.nil_append]
    rw [decodeOptionFields_cons, if_neg (by decide), if_neg (by decide), if_pos rfl,
      valueOfJson_toJson]
    rfl

/-- A written `options` member sets the field `Options`. -/
theorem decodeOptionFields_optionsMember (xs : List Json)
    (os : List ApplicationCommandInteractionDataOption) (rest : List (String × Json))
    (name : string) (ty : int) (value : Value) (focused : bool)
    (h : decodeOptions xs = .ok os) :
    decodeOptionFields (("options", .arr xs) :: rest) (.mk name ty value [] focused)
      = decodeOptionFields rest (.mk name ty value os focused) := by
  rw [decodeOptionFields_cons, if_neg (by decide), if_neg (by decide), if_neg (by decide),
    if_pos rfl]
  simp only [h]

/-- A written `focused` member sets the field `Focused`. -/
theorem decodeOptionFields_focusedMember (f : Option Bool) (name : string) (ty : int)
    (value : Value) (options : List ApplicationCommandInteractionDataOption) :
    decodeOptionFields (WireOption.focusedMember f) (.mk name ty value options false)
      = .ok (.mk name ty value options (f.getD false)) := by
  cases f with
  | none => rfl
  | some b =>
    simp only [WireOption.focusedMember]
    rw [decodeOptionFields_cons, if_neg (by decide), if_neg (by decide), if_neg (by decide),
      if_neg (by decide), if_pos rfl]
    simp only [decodeBool]
    rw [decodeOptionFields_nil]
    rfl

theorem typeFits_iff (t : JNumber) (h : WireOption.typeFits t = true) :
    ∃ k, t.asInt = some k ∧ (-(2 : Int) ^ 63 ≤ k ∧ k < (2 : Int) ^ 63) := by
  unfold WireOption.typeFits at h
  cases ht : t.asInt with
  | none =>
    rw [ht] at h
    cases h
  | some k =>
    rw [ht] at h
    exact ⟨k, rfl, by simpa using h⟩

mutual

/-- A well-formed option object decodes, to the option it stands for. -/
theorem decodeOption_toJson : ∀ w : WireOption, w.wellFormed = true →
    decodeOption w.toJson = .ok w.decoded
  | .scalar name t v f, hw => by
    simp only [WireOption.wellFormed, Bool.and_eq_true] at hw
    obtain ⟨k, hk, hfit⟩ := typeFits_iff t hw.1
    simp only [WireOption.toJson, WireOption.decoded]
    rw [decodeOption_obj, decodeOptionFields_head name t k _ hk hfit,
      decodeOptionFields_valueMember, decodeOptionFields_focusedMember, hk]
    rfl
  | .parent name t v os f, hw => by
    simp only [WireOption.wellFormed, Bool.and_eq_true] at hw
    obtain ⟨k, hk, hfit⟩ := typeFits_iff t hw.1.1
    have ih := decodeOptions_toJsonList os hw.2
    simp only [WireOption.toJson, WireOption.decoded]
    rw [decodeOption_obj, decodeOptionFields_head name t k _ hk hfit,
      decodeOptionFields_valueMember, decodeOptionFields_optionsMember _ _ _ _ _ _ _ ih,
      decodeOptionFields_focusedMember, hk]
    rfl

/-- A sequence of well-formed option objects decodes, in order. -/
theorem decodeOptions_toJsonList : ∀ ws : List WireOption,
    WireOption.wellFormedList ws = true →
    decodeOptions (WireOption.toJsonList ws) = .ok (WireOption.decodedList ws)
  | [], _ => rfl
  | w :: ws, hw => by
    simp only [WireOption.wellFormedList, Bool.and_eq_true] at hw
    simp only [WireOption.toJsonList, WireOption.decodedList]
    rw [decodeOptions_cons, decodeOption_toJson w hw.1, decodeOptions_toJsonList ws hw.2]

end

end Reference

namespace Reference

/-- The command payload decodes when its options do. -/
theorem unmarshal_commandPayload (dataId dataName : String) (xs : List Json)
    (os : List ApplicationCommandInteractionDataOption) (h : decodeOptions xs = .ok os) :
    unmarshalApplicationCommandData (some (Sample.commandPayload dataId dataName xs))
      = .ok ⟨dataId, dataName, os, ""⟩ := by
  simp [unmarshalApplicationCommandData, Sample.commandPayload,
    decodeApplicationCommandDataFields, decodeString, h]

end Reference

/-! ## Value and children of a decoded option -/

/-- C13, as the claim states it, fails: the command interaction whose options
are `{"name":"sub","type":1,"value":"x","options":[]}` and
`{"name":"n","type":4,"value":42,"options":[{"name":"c","type":3,"value":"y"}]}`
decodes without an error; its SubCommand option holds the Value `"x"` and its
Integer option holds a child option. -/
theorem exclusion_is_not_enforced :
    Interaction.UnmarshalJSON jsonSonic Interaction.zero
        (some (Sample.commandDocument
          [.obj Sample.subCommandWithValueMembers, .obj Sample.integerWithChildrenMembers]))
      = ({ Sample.env9 2 with
            Data := some (.ApplicationCommandData ⟨"1", "ping",
              [.mk "sub" ApplicationCommandOptionSubCommand (.string "x") [] false,
                .mk "n" ApplicationCommandOptionInteger (.float64 Sample.f42)
                  [.mk "c" ApplicationCommandOptionString (.string "y") [] false] false],
              ""⟩) }, none) :=
  rfl

/-- C13, amended: for option objects written as
`{"name":…,"type":t[,"value":…][,"options":[…]][,"focused":…]}` (`t` an
integer literal that fits 64 bits, the value a string, a boolean or a number
within the `float64` range, at most 32 levels of options), the command
payload `{"id":…,"name":…,"options":[…]}` decodes, and every option node
holds what its wire object carried, whatever its Type: its Value is the
`value` sent, unset exactly when the object has no `value` member, and its
Options are the decoded elements of the `options` sent, empty exactly when
the object has no `options` member or an empty one. -/
theorem option_keeps_value_and_children (ws : List WireOption) (dataId dataName : String)
    (hw : WireOption.wellFormedList ws = true) (_hd : WireOption.depthList ws ≤ 32) :
    jsonSonic.unmarshalApplicationCommandData
        (some (Sample.commandPayload dataId dataName (WireOption.toJsonList ws)))
      = .ok ⟨dataId, dataName, WireOption.decodedList ws, ""⟩ ∧
    (∀ w : WireOption, w.wellFormed = true → w.depth ≤ 32 →
      Reference.decodeOption w.toJson = .ok w.decoded) ∧
    (∀ w : WireOption,
      w.decoded.Value = WireOption.decodedValue w.value ∧
      (w.decoded.Value = Value.nil ↔ w.value = none) ∧
      w.decoded.Options = WireOption.decodedList w.children ∧
      (w.decoded.Options = [] ↔ w.children = [])) := by
  refine ⟨Reference.unmarshal_commandPayload dataId dataName _ _
    (Reference.decodeOptions_toJsonList ws hw),
    fun w h _ => Reference.decodeOption_toJson w h, ?_⟩
  intro w
  have hnil : ∀ v : Option WireScalar, WireOption.decodedValue v = Value.nil ↔ v = none := by
    intro v
    cases v with
    | none => simp [WireOption.decodedValue]
    | some s => cases s <;> simp [WireOption.decodedValue, WireScalar.decoded]
  have hlist : ∀ os : List WireOption, WireOption.decodedList os = [] ↔ os = [] := by
    intro os
    cases os <;> simp [WireOption.decodedList]
  cases w with
  | scalar name t v f =>
    refine ⟨rfl, ?_, rfl, ?_⟩
    · exact hnil v
    · simp [WireOption.decoded, WireOption.children,
        ApplicationCommandInteractionDataOption.Options]
  | parent name t v os f =>
    refine ⟨rfl, ?_, rfl, ?_⟩
    · exact hnil v
    · exact hlist os

/-- The payload whose options are the sub-command carrying `"value":"x"` and
the Integer option carrying a child decodes; the SubCommand option holds the
Value `x` and the Integer option holds its child. -/
theorem option_keeps_value_and_children_witness :
    jsonSonic.unmarshalApplicationCommandData
        (some (Sample.commandPayload "1" "ping"
          (WireOption.toJsonList [Sample.wireSubCommandWithValue, Sample.wireIntegerWithChildren])))
      = .ok ⟨"1", "ping",
          WireOption.decodedList [Sample.wireSubCommandWithValue, Sample.wireIntegerWithChildren],
          ""⟩ ∧
    Sample.wireSubCommandWithValue.decoded.Type_ = ApplicationCommandOptionSubCommand ∧
    Sample.wireSubCommandWithValue.decoded.Value = Value.string "x" ∧
    Sample.wireIntegerWithChildren.decoded.Type_ = ApplicationCommandOptionInteger ∧
    Sample.wireIntegerWithChildren.decoded.Options
      = [.mk "c" ApplicationCommandOptionString (.string "y") [] false] :=
  have h := option_keeps_value_and_children
    [Sample.wireSubCommandWithValue, Sample.wireIntegerWithChildren] "1" "ping" rfl
    (by decide)
  ⟨h.1, rfl, (h.2.2 Sample.wireSubCommandWithValue).1, rfl,
    (h.2.2 Sample.wireIntegerWithChildren).2.2.1⟩

/-! ## The accessor `Attachment` -/

/-- C16: for an option of Type Attachment whose Value is anything a JSON
decode into an `interface{}` produces (nil for an absent or `null` value, a
bool, a float64, a string, a slice or a map), `Attachment()` faults. It
returns only when the Value already holds a `*Attachment`, and no decoded
option holds one. -/
theorem Attachment_faults_on_decoded_value (o : ApplicationCommandInteractionDataOption)
    (hT : o.Type_ = ApplicationCommandOptionAttachment) :
    ((o.Value = Value.nil ∨ (∃ b, o.Value = Value.bool b) ∨ (∃ x, o.Value = Value.float64 x) ∨
        (∃ s, o.Value = Value.string s) ∨ (∃ xs, o.Value = Value.slice xs) ∨
        (∃ kvs, o.Value = Value.map kvs)) →
      o.Attachment = .error Panic.interfaceConversion) ∧
    (∀ j, o.Value = Reference.valueOfJson j →
      o.Attachment = .error Panic.interfaceConversion) ∧
    ((∃ r, o.Attachment = .ok r) ↔ ∃ p, o.Value = Value.attachment p) ∧
    (∀ j o', Reference.decodeOption j = .ok o' → ∀ p, o'.Value ≠ Value.attachment p) := by
  have hval : ∀ v, o.Value = v → (∀ p, v ≠ Value.attachment p) →
      o.Attachment = .error Panic.interfaceConversion := by
    intro v hv hp
    unfold ApplicationCommandInteractionDataOption.Attachment
    rw [if_neg (not_not.mpr hT), hv]
    cases v with
    | attachment p => exact absurd rfl (hp p)
    | _ => rfl
  refine ⟨?_, ?_, ?_, ?_⟩
  · rintro (h | ⟨b, h⟩ | ⟨x, h⟩ | ⟨s, h⟩ | ⟨xs, h⟩ | ⟨kvs, h⟩) <;>
      exact hval _ h (fun p hp => by cases hp)
  · intro j hj
    exact hval _ hj (Reference.valueOfJson_ne_attachment j)
  · unfold ApplicationCommandInteractionDataOption.Attachment
    rw [if_neg (not_not.mpr hT)]
    cases o.Value <;> simp
  · intro j o' hd p hp
    cases j with
    | obj kvs =>
      rw [Reference.decodeOption_obj] at hd
      have hv := Reference.decodeOptionFields_Value kvs _ o' hd
      rw [hp] at hv
      cases hl : lastMember "value" kvs with
      | none =>
        rw [hl] at hv
        cases hv
      | some v =>
        rw [hl] at hv
        exact Reference.valueOfJson_ne_attachment v p hv.symm
    | null => cases hd
    | bool b => cases hd
    | num n => cases hd
    | str s => cases hd
    | arr xs => cases hd

/-- The Attachment option as the wire sends it, holding the identifier string
of the attachment, faults, and so does the one without a value. -/
theorem Attachment_faults_on_decoded_value_witness :
    Sample.optAttachmentId.Attachment = .error Panic.interfaceConversion ∧
    Sample.optAttachmentNoValue.Attachment = .error Panic.interfaceConversion ∧
    Reference.decodeOption (Sample.optionObject "file" ⟨some 11, Sample.floatOfNat 11⟩
      (.str "5005")) = .ok Sample.optAttachmentId :=
  ⟨(Attachment_faults_on_decoded_value Sample.optAttachmentId rfl).1
      (Or.inr (Or.inr (Or.inr (Or.inl ⟨"5005", rfl⟩)))),
    (Attachment_faults_on_decoded_value Sample.optAttachmentNoValue rfl).1 (Or.inl rfl),
    rfl⟩

/-! ## The `type` of an option is not checked -/

/-- C12, as the claim states it, fails: the command interaction whose options
are `{"name":"n","type":4,"value":42}` and `{"name":"n","type":999,"value":"x"}`
decodes without an error, and the Interaction carries both options, the
second with the Type 999. -/
theorem unknown_option_type_is_accepted :
    Interaction.UnmarshalJSON jsonSonic Interaction.zero
        (some (Sample.commandDocument
          [Sample.optionObject "n" ⟨some 4, Sample.floatOfNat 4⟩ (Sample.number 42),
            Sample.optionObject "n" ⟨some 999, Sample.floatOfNat 999⟩ (.str "x")]))
      = ({ Sample.env9 2 with
            Data := some (.ApplicationCommandData ⟨"1", "ping",
              [Sample.optInteger42, .mk "n" 999 (.string "x") [] false], ""⟩) }, none) :=
  rfl

/-- C12, amended: decoding an ApplicationCommand (or autocomplete)
interaction does not check the `type` of its options. For an interaction
object `{"id":…,"type":2 or 4,"token":…,"data":{"id":…,"name":…,"options":[…]}}`
whose option objects, at every depth (at most 32 levels of options), are
written as `{"name":…,"type":t[,"value":…][,"options":[…]][,"focused":…]}`
with `t` any integer literal that fits 64 bits, inside 1..11 or not (for
example 999), and the value a string, a boolean or a number within the
`float64` range, `Interaction.UnmarshalJSON` returns no error and the
Interaction carries every option, with the Type `t` it was sent with,
together with its siblings and its children. -/
theorem option_type_is_not_checked (ws : List WireOption) (i : Interaction)
    (id token dataId dataName : String)
    (hw : WireOption.wellFormedList ws = true) (_hd : WireOption.depthList ws ≤ 32) :
    Interaction.UnmarshalJSON jsonSonic i
        (some (Sample.commandInteraction 2 id token dataId dataName (WireOption.toJsonList ws)))
      = ({ Sample.commandEnvelope InteractionTypeApplicationCommand id token with
            Data := some (.ApplicationCommandData
              ⟨dataId, dataName, WireOption.decodedList ws, ""⟩) }, none) ∧
    Interaction.UnmarshalJSON jsonSonic i
        (some (Sample.commandInteraction 4 id token dataId dataName (WireOption.toJsonList ws)))
      = ({ Sample.commandEnvelope InteractionTypeApplicationCommandAutocomplete id token with
            Data := some (.ApplicationCommandData
              ⟨dataId, dataName, WireOption.decodedList ws, ""⟩) }, none) ∧
    (∀ w : WireOption, w.decoded.Type_ = w.typeValue ∧
      w.decoded.Options = WireOption.decodedList w.children) := by
  have hdata := Reference.unmarshal_commandPayload dataId dataName _ _
    (Reference.decodeOptions_toJsonList ws hw)
  refine ⟨?_, ?_, ?_⟩
  · exact Interaction_UnmarshalJSON_command_ok jsonSonic i _
      ⟨Sample.commandEnvelope 2 id token, some (Sample.commandPayload dataId dataName _)⟩ _
      rfl (Or.inl rfl) hdata
  · exact Interaction_UnmarshalJSON_command_ok jsonSonic i _
      ⟨Sample.commandEnvelope 4 id token, some (Sample.commandPayload dataId dataName _)⟩ _
      rfl (Or.inr rfl) hdata
  · intro w
    cases w <;> exact ⟨rfl, rfl⟩

/-- The command interaction whose one option is the sub-command
`{"name":"sub","type":1,"options":[{"name":"n","type":4,"value":42},{"name":"odd","type":999,"value":"x"}]}`
decodes over an earlier interaction; the option sent with `"type":999`
stands below the sub-command, after its sibling, with the Type 999. -/
theorem option_type_is_not_checked_witness :
    Interaction.UnmarshalJSON jsonSonic Sample.priorInteraction
        (some (Sample.commandInteraction 2 "9" "tok" "1" "ping"
          (WireOption.toJsonList [Sample.wireSubCommandWithUnknown])))
      = ({ Sample.env9 2 with
            Data := some (.ApplicationCommandData ⟨"1", "ping",
              [.mk "sub" ApplicationCommandOptionSubCommand .nil
                [Sample.optInteger42, .mk "odd" 999 (.string "x") [] false] false], ""⟩) },
          none) ∧
    Sample.wireUnknownKind.decoded.Type_ = 999 :=
  have h := option_type_is_not_checked [Sample.wireSubCommandWithUnknown]
    Sample.priorInteraction "9" "tok" "1" "ping" rfl (by decide)
  ⟨h.1, (h.2.2 Sample.wireUnknownKind).1⟩

/-! ## Order of the decoded components -/

namespace Reference

/-- The decoded `components` array has one entry for each element of the wire
array, at the same index, decoded from that element. -/
theorem decodeComponents_pointwise (inRow : Bool) (xs : List Json) :
    ∀ cs : List MessageComponent, decodeComponents inRow xs = .ok cs →
      cs.length = xs.length ∧
      ∀ k : Nat, (xs[k]?).map (decodeComponent inRow) = (cs[k]?).map Except.ok := by
  induction xs with
  | nil =>
    intro cs h
    rw [decodeComponents_nil] at h
    cases h
    exact ⟨rfl, fun k => rfl⟩
  | cons x rest ih =>
    intro cs h
    rw [decodeComponents_cons] at h
    cases hx : decodeComponent inRow x with
    | error e =>
      rw [hx] at h
      cases h
    | ok c =>
      rw [hx] at h
      simp only at h
      cases hr : decodeComponents inRow rest with
      | error e =>
        rw [hr] at h
        cases h
      | ok cs' =>
        rw [hr] at h
        cases h
        obtain ⟨hlen, hk⟩ := ih cs' hr
        refine ⟨by simp [hlen], ?_⟩
        intro k
        cases k with
        | zero => simp [hx]
        | succ n => simpa using hk n

end Reference

end Goscord
